import Mathlib

/-!
# cybar: the event dispatcher and the Taskbar component

A shallow embedding of `bar::run` (src/cybar.cpp) and of `custom::Taskbar`
(src/custom.h), followed by the properties proved about them.

Conventions of the embedding.

* `Window`, `Atom` (both `unsigned long`), `KeyCode` and the `unsigned int`
  fields of an `XEvent` are natural numbers.
* `int` values are integers.  Counters and indices into the tracked list are
  taken without overflow, which is exact as long as the list has fewer than
  `2^31` entries.  Every place where the source mixes a signed and an unsigned
  operand is embedded with the conversion written out (`toUInt`, `toULong`,
  `toInt`), because these conversions matter for small values such as `-1`.
* What the X server answers to a query is an argument (`XServer`) of the
  function that asks.
* Effects on the outside world (client messages sent, input masks set, the
  redraw, the surface flip) are returned as values.
-/

namespace Cybar

/-! ## Machine integers -/

/-- Value of an integer expression stored in a 32-bit `int` (two's complement). -/
def toInt (n : Int) : Int := (n + 2147483648) % 4294967296 - 2147483648

/-- Conversion of an `int` to `unsigned int` (`uint32_t`, `gfx::Coord`). -/
def toUInt (n : Int) : Nat := (n % 4294967296).toNat

/-- Conversion of an `int` to `unsigned long` (`size_t`). -/
def toULong (n : Int) : Nat := (n % 18446744073709551616).toNat

/-! ## X11 vocabulary used by the source -/

abbrev Window := Nat
abbrev Atom := Nat
abbrev EventType := Int

/-- X.h: `#define KeyPress 2`. -/
def KeyPress : EventType := 2
/-- X.h: `#define KeyRelease 3`. -/
def KeyRelease : EventType := 3
/-- X.h: `#define ButtonPress 4`. -/
def ButtonPress : EventType := 4
/-- X.h: `#define FocusIn 9`. -/
def FocusIn : EventType := 9
/-- X.h: `#define Expose 12`. -/
def Expose : EventType := 12
/-- X.h: `#define MapNotify 19`. -/
def MapNotify : EventType := 19
/-- X.h: `#define PropertyNotify 28`. -/
def PropertyNotify : EventType := 28
/-- X.h: `#define Mod1Mask (1<<3)`. -/
def Mod1Mask : Nat := 8

/-- bar.h: `EventType const Update = Expose;` -/
def Update : EventType := Expose
/-- bar.h: `EventType const Startup = 1000;` -/
def Startup : EventType := 1000

/-- The members of the `XEvent` union that the source reads: `type`,
`xbutton.x`, `xkey.state`, `xkey.keycode`, `xproperty.atom`, `xmap.window`. -/
structure XEvent where
  type : EventType
  x : Int
  state : Nat
  keycode : Nat
  atom : Atom
  window : Window
deriving DecidableEq, Repr

/-- Answers of the X server to the queries made while one event is handled:
the items of the root window's `_NET_CLIENT_LIST` property, the result of
`XGetClassHint` for a window (`none` when the call returns 0, otherwise
`res_class`), and the items of the `_NET_ACTIVE_WINDOW` property. A failed
property fetch has no items. -/
structure XServer where
  client_list : List Window
  class_hint : Window → Option String
  active_prop : List Window

/-! ## custom::Taskbar -/

/-- Data members of `Taskbar<startx, width>` (the `Text` member is left out:
it is only used for drawing). -/
structure Taskbar where
  wnd_list : List (Window × String)
  active : Window
  active_wnd_idx : Int
  NET_CLIENT_LIST : Atom
  NET_ACTIVE_WINDOW : Atom
  alt_kc : Nat
  tab_kc : Nat
  grave_kc : Nat
  alt_mask : Nat
  alttab_mode : Bool
  atsel_wnd_idx : Int
deriving DecidableEq, Repr

/-- What one `update` call does to the outside world: the windows for which
`activate_window` sent a client message (in order), the windows passed to
`set_keyreleasemask`, and whether the redraw at the end of `update` ran. -/
structure Effects where
  activations : List Window
  keymasks : List Window
  redraw : Bool
deriving DecidableEq, Repr

namespace Taskbar

/-- The member `int const TGT_WIDTH = 100;`, the width of each icon region. -/
def TGT_WIDTH : Int := 100

/-- The icon chosen in `refresh_list` for a window class. -/
def icon (wm_class : String) : String :=
  if wm_class = "URxvt" then "\uf120"
  else if wm_class = "Firefox" then "\uf269"
  else "\uf059"

/-- The `for` loop of `refresh_list`: a window is appended when
`XGetClassHint` succeeds and the class is not empty. -/
def assign_icons (class_hint : Window → Option String) :
    List Window → List (Window × String)
  | [] => []
  | w :: ws =>
    match class_hint w with
    | some wm_class =>
      if wm_class = "" then assign_icons class_hint ws
      else (w, icon wm_class) :: assign_icons class_hint ws
    | none => assign_icons class_hint ws

/-- The order used by `std::sort` in `refresh_list`: the comparator is
`a.first < b.first`, so `b` may follow `a` exactly when `a.first <= b.first`. -/
def handle_le (a b : Window × String) : Prop := a.1 ≤ b.1

instance : DecidableRel handle_le := fun a b => inferInstanceAs (Decidable (a.1 ≤ b.1))

instance : IsTotal (Window × String) handle_le := ⟨fun a b => Nat.le_total a.1 b.1⟩

instance : IsTrans (Window × String) handle_le := ⟨fun _ _ _ h1 h2 => Nat.le_trans h1 h2⟩

/-- The call `std::sort(wnd_list.begin(), wnd_list.end(), cmp)`. `std::sort`
leaves a permutation ordered by the comparator and does not fix the order of
entries with equal handles; the embedding takes insertion sort. -/
def sort_wnd_list (l : List (Window × String)) : List (Window × String) :=
  l.insertionSort handle_le

/-- The method `Taskbar::refresh_list`. -/
def refresh_list (tb : Taskbar) (srv : XServer) : Taskbar :=
  { tb with wnd_list := sort_wnd_list (assign_icons srv.class_hint srv.client_list) }

/-- The search loop of `refresh_active`, entered with counter `i`: the index
of the first entry whose handle is `active`, or `-1`. -/
def search_active (active : Window) : List (Window × String) → Int → Int
  | [], _ => -1
  | p :: rest, i => if p.1 = active then i else search_active active rest (i + 1)

/-- The method `Taskbar::refresh_active`. -/
def refresh_active (tb : Taskbar) (srv : XServer) : Taskbar :=
  match srv.active_prop with
  | [] => { tb with active_wnd_idx := -1 }
  | a :: _ => { tb with active := a, active_wnd_idx := search_active a tb.wnd_list 0 }

/-- The window stored at an `int` index that the caller has checked. -/
def handle_at (l : List (Window × String)) (i : Int) : List Window :=
  match l.get? i.toNat with
  | some p => [p.1]
  | none => []

/-- The method `Taskbar::click`: the list of windows for which `activate_window` is
called. `int(startx)` and the subtraction are `int` operations, the division
truncates towards zero, and `target < wnd_list.size()` compares as
`unsigned long`. -/
def click (startx : Nat) (tb : Taskbar) (x : Int) : List Window :=
  let target := Int.tdiv (toInt (x - toInt startx)) TGT_WIDTH
  if 0 ≤ target ∧ toULong target < tb.wnd_list.length then handle_at tb.wnd_list target
  else []

/-- The constructor. It initialises neither `active`, `active_wnd_idx` nor
`atsel_wnd_idx`; their indeterminate values are arguments. The atoms and key
codes are what `XInternAtom` and `XKeysymToKeycode` return. -/
def construct (client_atom active_atom : Atom) (tab alt grave : Nat)
    (active0 : Window) (idx0 sel0 : Int) : Taskbar :=
  { wnd_list := []
    active := active0
    active_wnd_idx := idx0
    NET_CLIENT_LIST := client_atom
    NET_ACTIVE_WINDOW := active_atom
    alt_kc := alt
    tab_kc := tab
    grave_kc := grave
    alt_mask := Mod1Mask
    alttab_mode := false
    atsel_wnd_idx := sel0 }

/-- The key-press branch of `update`, after its guard has passed. -/
def cycle (tb : Taskbar) (keycode : Nat) : Taskbar :=
  let tb1 : Taskbar :=
    if tb.alttab_mode then tb
    else { tb with alttab_mode := true, atsel_wnd_idx := tb.active_wnd_idx }
  if keycode = tb1.tab_kc then
    { tb1 with
      atsel_wnd_idx := ((toULong (tb1.atsel_wnd_idx + 1) % tb1.wnd_list.length : Nat) : Int) }
  else
    { tb1 with
      atsel_wnd_idx :=
        if tb1.atsel_wnd_idx > 0 then tb1.atsel_wnd_idx - 1
        else ((tb1.wnd_list.length - 1 : Nat) : Int) }

/-- The method `Taskbar<startx, width>::update`. The result is the new state and the
effects of the call. -/
def update (startx width : Nat) (tb : Taskbar) (srv : XServer) (ev : XEvent) :
    Taskbar × Effects :=
  if ev.type = Startup then
    (refresh_active (refresh_list tb srv) srv, ⟨[], [], true⟩)
  else if ev.type = PropertyNotify then
    if ev.atom = tb.NET_CLIENT_LIST then (refresh_list tb srv, ⟨[], [], true⟩)
    else if ev.atom = tb.NET_ACTIVE_WINDOW then (refresh_active tb srv, ⟨[], [], true⟩)
    else (tb, ⟨[], [], true⟩)
  else if ev.type = ButtonPress ∧ startx ≤ toUInt ev.x
      ∧ toUInt ev.x < (startx + width) % 4294967296 then
    (tb, ⟨click startx tb ev.x, [], true⟩)
  else if ev.type = MapNotify then
    (tb, ⟨[], [ev.window], true⟩)
  else if ev.type = KeyPress ∧ ev.state = tb.alt_mask ∧ tb.wnd_list ≠ []
      ∧ (ev.keycode = tb.tab_kc ∨ ev.keycode = tb.grave_kc) then
    (cycle tb ev.keycode, ⟨[], [], true⟩)
  else if ev.type = KeyRelease ∧ ev.keycode = tb.alt_kc ∧ tb.alttab_mode = true then
    ({ tb with alttab_mode := false },
      ⟨if 0 ≤ tb.atsel_wnd_idx ∧ toULong tb.atsel_wnd_idx < tb.wnd_list.length then
          handle_at tb.wnd_list tb.atsel_wnd_idx
        else [],
       [], true⟩)
  else
    (tb, ⟨[], [], false⟩)

/-- The states a `Taskbar<startx, width>` can be in: the constructed one, and
every state left by an `update` call, whatever the event and whatever the
X server answers. -/
inductive Reachable (startx width : Nat) : Taskbar → Prop
  | construct (client_atom active_atom : Atom) (tab alt grave : Nat)
      (active0 : Window) (idx0 sel0 : Int) :
      Reachable startx width
        (Taskbar.construct client_atom active_atom tab alt grave active0 idx0 sel0)
  | update {tb : Taskbar} (srv : XServer) (ev : XEvent) :
      Reachable startx width tb → Reachable startx width (update startx width tb srv ev).1

/-- The state left by one `update` call. -/
def step (startx width : Nat) (srv : XServer) (ev : XEvent) (tb : Taskbar) : Taskbar :=
  (update startx width tb srv ev).1

/-- The states that arise when `bar::run` drives the Taskbar and the tracked
list never gets shorter: the first `update` is the one for the Startup event,
and each later `update` leaves a tracked list at least as long as before. -/
inductive ReachableNoShrink (startx width : Nat) : Taskbar → Prop
  | startup (client_atom active_atom : Atom) (tab alt grave : Nat)
      (active0 : Window) (idx0 sel0 : Int) (srv : XServer) (ev : XEvent) :
      ev.type = Startup →
      ReachableNoShrink startx width
        (update startx width
          (Taskbar.construct client_atom active_atom tab alt grave active0 idx0 sel0) srv ev).1
  | update {tb : Taskbar} (srv : XServer) (ev : XEvent) :
      ReachableNoShrink startx width tb →
      tb.wnd_list.length ≤ (update startx width tb srv ev).1.wnd_list.length →
      ReachableNoShrink startx width (update startx width tb srv ev).1

/-- The two indices are consistent with the length of the tracked list:
`active_wnd_idx` is `-1` or an index, and in alt-tab mode `atsel_wnd_idx` is an
index. -/
def IndexInv (tb : Taskbar) : Prop :=
  (-1 ≤ tb.active_wnd_idx ∧ tb.active_wnd_idx < tb.wnd_list.length)
  ∧ (tb.alttab_mode = true →
      0 ≤ tb.atsel_wnd_idx ∧ tb.atsel_wnd_idx < tb.wnd_list.length)

/-- Specification side: whether `refresh_list` keeps a fetched window, that
is, whether `XGetClassHint` succeeds for it with a class that is not empty. -/
def has_class (class_hint : Window → Option String) (w : Window) : Bool :=
  match class_hint w with
  | some wm_class => decide (wm_class ≠ "")
  | none => false

/-- Specification side: the fetched windows that have a class, in fetch order,
each paired with the icon of its class. -/
def classified (srv : XServer) : List (Window × String) :=
  (srv.client_list.filter (has_class srv.class_hint)).map
    (fun w => (w, icon ((srv.class_hint w).getD "")))

/-- The state after a sequence of `update` calls, each with the answers of
the X server at that time. -/
def steps (startx width : Nat) : Taskbar → List (XServer × XEvent) → Taskbar
  | tb, [] => tb
  | tb, m :: rest => steps startx width (step startx width m.1 m.2 tb) rest

/-- Handles of the tracked list, left to right. -/
def handles (tb : Taskbar) : List Window := tb.wnd_list.map Prod.fst

end Taskbar

/-! ## bar::run -/

namespace bar

/-- The class `bar::Error`: an error carries its message. -/
structure Error where
  msg : String
deriving DecidableEq, Repr

/-- The type `ETList = std::unordered_set<EventType>`: its elements, in the
order in which a range-for visits them. A set holds no element twice. -/
structure ETList where
  elems : List EventType
  nodup : elems.Nodup

/-- The interface `bar::Component` over a type `σ` of component states.
`update` either returns normally with the new state of the component or
throws a `bar::Error`; `get_relevant_event_types` is a `const` method. -/
structure Component (σ : Type) where
  update : σ → XEvent → Except Error σ
  get_relevant_event_types : σ → ETList

/-- The local `et_table`, an `unordered_map<EventType, vector<Component*>>`.
A `Component*` is the position of the component in `bar::comps`. -/
abbrev EtTable := List (EventType × List Nat)

namespace EtTable

/-- Look a key up: `count(t)` is whether this is `some`, and `et_table[t]`
is the vector found. -/
def find : EtTable → EventType → Option (List Nat)
  | [], _ => none
  | (k, v) :: rest, t => if k = t then some v else find rest t

/-- The body of the inner loop of `bar::run`:
`if (!et_table.count(t)) et_table.emplace(t, {}); et_table[t].push_back(c);` -/
def add : EtTable → EventType → Nat → EtTable
  | [], t, c => [(t, [c])]
  | (k, v) :: rest, t, c => if k = t then (k, v ++ [c]) :: rest else (k, v) :: add rest t c

end EtTable

/-- The inner loop `for (EventType t : c->get_relevant_event_types())`. -/
def add_component (c : Nat) : List EventType → EtTable → EtTable
  | [], tbl => tbl
  | t :: ts, tbl => add_component c ts (tbl.add t c)

/-- The outer loop `for (auto const& c : comps)`, entered at position `i`.
`mem` holds the state of each component, by position. -/
def build_from {σ : Type} (mem : Nat → σ) : List (Component σ) → Nat → EtTable → EtTable
  | [], _, tbl => tbl
  | comp :: rest, i, tbl =>
    build_from mem rest (i + 1) (add_component i (comp.get_relevant_event_types (mem i)).elems tbl)

/-- The table `et_table` as `bar::run` builds it. -/
def et_table {σ : Type} (comps : List (Component σ)) (mem : Nat → σ) : EtTable :=
  build_from mem comps 0 []

/-- What `bar::run` does that can be observed: a call `c->update(ev)`, a call
of `gfx::flip`, a string written to `std::cerr`. -/
inductive Action
  | update (c : Nat) (ev : XEvent)
  | flip
  | cerr (s : String)
deriving DecidableEq, Repr

/-- State of a run: the states of the components and what was done so far. -/
structure RunState (σ : Type) where
  mem : Nat → σ
  trace : List Action

/-- The loop `for (Component *c : et_table[ev.type]) c->update(ev);`. The
second component of the result is the `bar::Error` that left the loop, if one
was thrown; the state of the component whose `update` threw is kept as it
was. (Every pointer in the table is one of `comps`, so the first case of the
`match` is never taken.) -/
def update_all {σ : Type} (comps : List (Component σ)) (ev : XEvent) :
    List Nat → RunState σ → RunState σ × Option Error
  | [], rs => (rs, none)
  | c :: cs, rs =>
    match comps.get? c with
    | none => update_all comps ev cs rs
    | some comp =>
      match comp.update (rs.mem c) ev with
      | .ok s =>
        update_all comps ev cs ⟨Function.update rs.mem c s, rs.trace ++ [Action.update c ev]⟩
      | .error e => (⟨rs.mem, rs.trace ++ [Action.update c ev]⟩, some e)

/-- The lambda `dispatch` of `bar::run`, applied to the current `ev`. -/
def dispatch {σ : Type} (comps : List (Component σ)) (tbl : EtTable) (ev : XEvent)
    (rs : RunState σ) : RunState σ × Option Error :=
  match tbl.find ev.type with
  | none => (rs, none)
  | some cs =>
    match update_all comps ev cs rs with
    | (rs1, none) => (⟨rs1.mem, rs1.trace ++ [Action.flip]⟩, none)
    | (rs1, some e) => (rs1, some e)

/-- The statement `if (ev.type == FocusIn) std::cerr << "b\n";` of the loop. -/
def note_focus {σ : Type} (ev : XEvent) (rs : RunState σ) : RunState σ :=
  if ev.type = FocusIn then ⟨rs.mem, rs.trace ++ [Action.cerr "b\n"]⟩ else rs

/-- The loop `while (true)` of `bar::run` over the events that `XNextEvent`
returns, one after the other. The loop has no handler: a `bar::Error` thrown
by `dispatch` leaves it. -/
def event_loop {σ : Type} (comps : List (Component σ)) (tbl : EtTable) :
    List XEvent → RunState σ → RunState σ × Option Error
  | [], rs => (rs, none)
  | ev :: evs, rs =>
    match dispatch comps tbl ev (note_focus ev rs) with
    | (rs1, none) => event_loop comps tbl evs rs1
    | (rs1, some e) => (rs1, some e)

/-- The event that `bar::run` dispatches first: the local `ev`, not
initialised (`ev0`), with `ev.type = Startup`. -/
def startup_event (ev0 : XEvent) : XEvent := { ev0 with type := Startup }

/-- How a call of `bar::run` stands after the events read so far. The
function never returns. A `bar::Error` that an `update` throws finds no
handler in `bar::run`; unwinding towards the handler of `main` destroys the
local `std::thread heartbeat_thread`, which is still joinable, and its
destructor calls `std::terminate`: the process is aborted inside `bar::run`,
and the handler of `main`, which would log the error, is never entered. -/
inductive Status
  | waiting
  | terminated (e : Error)
deriving DecidableEq, Repr

/-- The status of `bar::run` when the loop was left with the given error, if
any. -/
def status_of : Option Error → Status
  | none => Status.waiting
  | some e => Status.terminated e

/-- The function `bar::run` on the components `comps` with states `mem`, for
the events `evs` that `XNextEvent` returns (the Expose events that the
heartbeat thread sends arrive this way, like every other event). The result
is the state reached after these events, with `Status.waiting` when the
loop waits for the next event and `Status.terminated e` when an `update`
threw `e` and the process was terminated. -/
def run {σ : Type} (comps : List (Component σ)) (mem : Nat → σ) (ev0 : XEvent)
    (evs : List XEvent) : RunState σ × Status :=
  match dispatch comps (et_table comps mem) (startup_event ev0) ⟨mem, []⟩ with
  | (rs, some e) => (rs, Status.terminated e)
  | (rs, none) =>
    match event_loop comps (et_table comps mem) evs rs with
    | (rs1, none) => (rs1, Status.waiting)
    | (rs1, some e) => (rs1, Status.terminated e)

/-- Whether the component at position `c` returns normally from `update(ev)`
when its state is `s`. -/
def returns_on {σ : Type} (comps : List (Component σ)) (c : Nat) (s : σ) (ev : XEvent) :
    Bool :=
  match comps.get? c with
  | some comp =>
    match comp.update s ev with
    | Except.ok _ => true
    | Except.error _ => false
  | none => false

/-- The component at position `c` throws `e` from `update(ev)` when its state
is `s`. -/
def throws_on {σ : Type} (comps : List (Component σ)) (c : Nat) (s : σ) (ev : XEvent)
    (e : Error) : Prop :=
  ∃ comp, comps.get? c = some comp ∧ comp.update s ev = Except.error e

/-- The `update` calls of a trace, in order. -/
def calls : List Action → List (Nat × XEvent)
  | [] => []
  | Action.update c ev :: rest => (c, ev) :: calls rest
  | _ :: rest => calls rest

/-- Number of `gfx::flip` calls of a trace. -/
def flips (tr : List Action) : Nat := tr.count Action.flip

/-- Specification side: the positions, from `i` on, of the components that
declare the event type `t`, in registration order. -/
def declared_from {σ : Type} (mem : Nat → σ) (t : EventType) :
    List (Component σ) → Nat → List Nat
  | [], _ => []
  | comp :: rest, i =>
    if t ∈ (comp.get_relevant_event_types (mem i)).elems then
      i :: declared_from mem t rest (i + 1)
    else declared_from mem t rest (i + 1)

/-- Specification side: the components that declare `t`, in registration order. -/
def declared {σ : Type} (comps : List (Component σ)) (mem : Nat → σ) (t : EventType) :
    List Nat :=
  declared_from mem t comps 0

end bar

/-! ## Concrete data used in the examples -/

/-- The X server of the scenario of the specification: the client list is
fetched in the order 1, 3, 2, every window is a terminal, window 2 is active. -/
def scenario_server : XServer :=
  { client_list := [1, 3, 2], class_hint := fun _ => some "URxvt", active_prop := [2] }

/-- A Taskbar as constructed, with tab = 23, alt = 64, grave = 49. -/
def scenario_taskbar : Taskbar := Taskbar.construct 301 302 23 64 49 0 0 0

/-- The scenario after the Startup update and one Tab press with Alt held:
windows 1, 2, 3 tracked, window 2 active, alt-tab mode on, window 3 selected. -/
def selecting_taskbar : Taskbar :=
  { wnd_list := [(1, "\uf120"), (2, "\uf120"), (3, "\uf120")]
    active := 2
    active_wnd_idx := 1
    NET_CLIENT_LIST := 301
    NET_ACTIVE_WINDOW := 302
    alt_kc := 64
    tab_kc := 23
    grave_kc := 49
    alt_mask := Mod1Mask
    alttab_mode := true
    atsel_wnd_idx := 2 }

/-- The Startup event. -/
def startup_xevent : XEvent := ⟨Startup, 0, 0, 0, 0, 0⟩

/-- A press of a key with the given key code while exactly Mod1 is held. -/
def key_press (keycode : Nat) : XEvent := ⟨KeyPress, 0, Mod1Mask, keycode, 0, 0⟩

/-- A release of the key with the given key code. -/
def key_release (keycode : Nat) : XEvent := ⟨KeyRelease, 0, Mod1Mask, keycode, 0, 0⟩

/-- A button press at the horizontal position `x`. -/
def button_press (x : Int) : XEvent := ⟨ButtonPress, x, 0, 0, 0, 0⟩

/-- A `PropertyNotify` event for the given atom of the root window. -/
def property_notify (atom : Atom) : XEvent := ⟨PropertyNotify, 0, 0, 0, atom, 0⟩

/-- A component that counts the updates it receives and never throws. -/
def counting (types : List EventType) (h : types.Nodup) : bar.Component Nat :=
  { update := fun n _ => Except.ok (n + 1)
    get_relevant_event_types := fun _ => ⟨types, h⟩ }

/-- A component whose `update` throws on every key press. -/
def failing (types : List EventType) (h : types.Nodup) : bar.Component Nat :=
  { update := fun n ev =>
      if ev.type = KeyPress then Except.error ⟨"no key handler"⟩ else Except.ok (n + 1)
    get_relevant_event_types := fun _ => ⟨types, h⟩ }

/-- A component whose `update` throws on the Startup event. -/
def failing_at_startup (types : List EventType) (h : types.Nodup) : bar.Component Nat :=
  { update := fun n ev =>
      if ev.type = Startup then Except.error ⟨"no display"⟩ else Except.ok (n + 1)
    get_relevant_event_types := fun _ => ⟨types, h⟩ }

/-- A component that throws on Startup, registered before one that never
throws; both declare Startup. -/
def startup_faulty_comps : List (bar.Component Nat) :=
  [failing_at_startup [Startup] (by decide), counting [Startup, Expose] (by decide)]

/-- Two components that never throw. -/
def sound_comps : List (bar.Component Nat) :=
  [counting [Startup, KeyPress] (by decide), counting [Expose, Startup] (by decide)]

/-- A component that throws on key presses, registered before one that never
throws; both declare key presses. -/
def faulty_comps : List (bar.Component Nat) :=
  [failing [KeyPress, Expose] (by decide), counting [Startup, Expose, KeyPress] (by decide)]

/-- An Expose event (the heartbeat). -/
def expose_xevent : XEvent := ⟨Expose, 0, 0, 0, 0, 0⟩

/-- An X server on which only window 1 is left. -/
def shrunk_server : XServer :=
  { client_list := [1], class_hint := fun _ => some "URxvt", active_prop := [1] }

/-- The scenario continued: Startup, one Tab press with Alt held, and then a
change of `_NET_CLIENT_LIST` after which only window 1 is left. -/
def shrunk_taskbar : Taskbar :=
  Taskbar.step 100 1300 shrunk_server (property_notify 301)
    (Taskbar.step 100 1300 scenario_server (key_press 23)
      (Taskbar.step 100 1300 scenario_server startup_xevent scenario_taskbar))

/-- A Taskbar in the Normal state that tracks the fourteen windows 1, ..., 14. -/
def crowded_taskbar : Taskbar :=
  { wnd_list := (List.range 14).map (fun i => (i + 1, "\uf059"))
    active := 1
    active_wnd_idx := 0
    NET_CLIENT_LIST := 301
    NET_ACTIVE_WINDOW := 302
    alt_kc := 64
    tab_kc := 23
    grave_kc := 49
    alt_mask := Mod1Mask
    alttab_mode := false
    atsel_wnd_idx := 0 }

/-- The X server of the scenario when no window is active: the property
`_NET_ACTIVE_WINDOW` has no items. -/
def unfocused_server : XServer :=
  { client_list := [1, 3, 2], class_hint := fun _ => some "URxvt", active_prop := [] }

/-- The constructed Taskbar after the Startup update of the scenario: windows
1, 2, 3 tracked, window 2 active (index 1), Normal state. -/
def started_taskbar : Taskbar :=
  Taskbar.step 100 1300 scenario_server startup_xevent scenario_taskbar

/-- The constructed Taskbar after a Startup update while no window is active:
windows 1, 2, 3 tracked, active index -1, Normal state. -/
def unfocused_taskbar : Taskbar :=
  Taskbar.step 100 1300 unfocused_server startup_xevent scenario_taskbar

/-- An X server with two client windows of which window 2 has no class hint
(`XGetClassHint` returns 0 for it). -/
def unclassed_server : XServer :=
  { client_list := [1, 2]
    class_hint := fun w => if w = 2 then none else some "URxvt"
    active_prop := [1] }

/-- The X server of the scenario with window 3 active. -/
def focus3_server : XServer :=
  { client_list := [1, 3, 2], class_hint := fun _ => some "URxvt", active_prop := [3] }

/-- The X server after window 1 was closed; window 3 is still the active one. -/
def closed1_server : XServer :=
  { client_list := [2, 3], class_hint := fun _ => some "URxvt", active_prop := [3] }

/-- The Taskbar after Startup with windows 1, 2, 3 and window 3 active, and
then the `_NET_CLIENT_LIST` change caused by closing window 1. -/
def closed1_taskbar : Taskbar :=
  Taskbar.step 100 1300 closed1_server (property_notify 301)
    (Taskbar.step 100 1300 focus3_server startup_xevent scenario_taskbar)

/-- The X server of the scenario with window 1 active. -/
def focus1_server : XServer :=
  { client_list := [1, 3, 2], class_hint := fun _ => some "URxvt", active_prop := [1] }

/-- The X server after window 2 was closed; window 1 is still the active one. -/
def closed2_server : XServer :=
  { client_list := [1, 3], class_hint := fun _ => some "URxvt", active_prop := [1] }

/-- The Taskbar after Startup with windows 1, 2, 3 and window 1 active, and one
Tab press with Alt held: alt-tab mode, selection index 1 (window 2). -/
def picked2_taskbar : Taskbar :=
  Taskbar.step 100 1300 focus1_server (key_press 23)
    (Taskbar.step 100 1300 focus1_server startup_xevent scenario_taskbar)

/-- The Taskbar `picked2_taskbar` after the `_NET_CLIENT_LIST` change caused by
closing window 2, the selected one. -/
def picked2_closed_taskbar : Taskbar :=
  Taskbar.step 100 1300 closed2_server (property_notify 301) picked2_taskbar

/-- A key press with an arbitrary modifier state. -/
def key_press_with (state keycode : Nat) : XEvent := ⟨KeyPress, 0, state, keycode, 0, 0⟩

/-- X.h: `#define Mod2Mask (1<<4)`, usually Num Lock. -/
def Mod2Mask : Nat := 16

/-! ## Properties of the Taskbar -/

section TaskbarFacts

open Taskbar

theorem sort_wnd_list_sorted (l : List (Window × String)) :
    (sort_wnd_list l).Sorted handle_le :=
  List.sorted_insertionSort handle_le l

theorem sort_wnd_list_perm (l : List (Window × String)) : (sort_wnd_list l).Perm l :=
  List.perm_insertionSort handle_le l

theorem sort_wnd_list_length (l : List (Window × String)) :
    (sort_wnd_list l).length = l.length :=
  (sort_wnd_list_perm l).length_eq

theorem refresh_list_handles_sorted (tb : Taskbar) (srv : XServer) :
    (handles (refresh_list tb srv)).Sorted (· ≤ ·) := by
  have h := sort_wnd_list_sorted (assign_icons srv.class_hint srv.client_list)
  unfold handles refresh_list
  exact List.pairwise_map.mpr h

theorem refresh_active_wnd_list (tb : Taskbar) (srv : XServer) :
    (refresh_active tb srv).wnd_list = tb.wnd_list := by
  unfold refresh_active
  split <;> rfl

theorem refresh_active_alttab (tb : Taskbar) (srv : XServer) :
    (refresh_active tb srv).alttab_mode = tb.alttab_mode
      ∧ (refresh_active tb srv).atsel_wnd_idx = tb.atsel_wnd_idx := by
  unfold refresh_active
  split <;> exact ⟨rfl, rfl⟩

theorem cycle_wnd_list (tb : Taskbar) (keycode : Nat) :
    (cycle tb keycode).wnd_list = tb.wnd_list := by
  unfold cycle
  by_cases hm : tb.alttab_mode = true <;> by_cases hk : keycode = tb.tab_kc <;> simp [hm, hk]

/-- An `update` either keeps the tracked list or replaces it by the one that
`refresh_list` computes. -/
theorem update_wnd_list (startx width : Nat) (tb : Taskbar) (srv : XServer) (ev : XEvent) :
    (update startx width tb srv ev).1.wnd_list = tb.wnd_list
      ∨ (update startx width tb srv ev).1.wnd_list = (refresh_list tb srv).wnd_list := by
  unfold update
  split_ifs <;>
    first
      | (left; rfl)
      | (right; rfl)
      | (left; exact refresh_active_wnd_list _ _)
      | (right; exact refresh_active_wnd_list _ _)
      | (left; exact cycle_wnd_list _ _)

theorem reachable_handles_sorted (startx width : Nat) (tb : Taskbar)
    (h : Reachable startx width tb) : (handles tb).Sorted (· ≤ ·) := by
  induction h with
  | construct => exact List.sorted_nil
  | update srv ev _ ih =>
    rcases update_wnd_list startx width _ srv ev with h1 | h1
    · unfold handles at ih ⊢
      rw [h1]
      exact ih
    · rename_i tb0 _
      have h2 := refresh_list_handles_sorted tb0 srv
      unfold handles at h2 ⊢
      rw [h1]
      exact h2

/-- C1. In every state reachable from construction by `update` calls, with
arbitrary events and arbitrary answers of the X server, the handles of
`wnd_list` are in ascending order; the list left by `refresh_list` is in
ascending order for every fetched list; and the fetch order W1, W3, W2 (with
W1 < W2 < W3 and each window carrying a class) leaves W1, W2, W3. -/
theorem wnd_list_sorted_invariant (startx width : Nat) :
    (∀ tb : Taskbar, Reachable startx width tb → (handles tb).Sorted (· ≤ ·))
    ∧ (∀ (tb : Taskbar) (srv : XServer), (handles (refresh_list tb srv)).Sorted (· ≤ ·))
    ∧ (∀ (tb : Taskbar) (srv : XServer) (w1 w2 w3 : Window) (c1 c2 c3 : String),
        w1 < w2 → w2 < w3 → srv.client_list = [w1, w3, w2] →
        srv.class_hint w1 = some c1 → srv.class_hint w2 = some c2 →
        srv.class_hint w3 = some c3 → c1 ≠ "" → c2 ≠ "" → c3 ≠ "" →
        handles (refresh_list tb srv) = [w1, w2, w3]) := by
  refine ⟨reachable_handles_sorted startx width, refresh_list_handles_sorted, ?_⟩
  intro tb srv w1 w2 w3 c1 c2 c3 h12 h23 hl h1 h2 h3 n1 n2 n3
  have h13 : w1 ≤ w3 := Nat.le_of_lt (Nat.lt_trans h12 h23)
  have h32 : ¬ w3 ≤ w2 := Nat.not_le.mpr h23
  have h12le : w1 ≤ w2 := Nat.le_of_lt h12
  simp [handles, refresh_list, sort_wnd_list, assign_icons, hl, h1, h2, h3, n1, n2, n3,
    List.insertionSort, List.orderedInsert, handle_le, h13, h32, h12le]

theorem wnd_list_sorted_invariant_witness :
    (handles (update 100 1300 scenario_taskbar scenario_server startup_xevent).1).Sorted (· ≤ ·)
    ∧ handles (refresh_list scenario_taskbar scenario_server) = [1, 2, 3] :=
  ⟨(wnd_list_sorted_invariant 100 1300).1 _
      (Reachable.update scenario_server startup_xevent
        (Reachable.construct 301 302 23 64 49 0 0 0)),
   (wnd_list_sorted_invariant 100 1300).2.2 scenario_taskbar scenario_server 1 2 3
      "URxvt" "URxvt" "URxvt" (by decide) (by decide) rfl rfl rfl rfl
      (by decide) (by decide) (by decide)⟩

theorem toULong_natCast (n : Nat) (h : n < 18446744073709551616) : toULong (n : Int) = n := by
  unfold toULong
  omega

/-- A Tab press in alt-tab mode moves the selection from `j` to `(j + 1) mod count`
and changes nothing else. -/
theorem update_tab_in_mode (startx width : Nat) (tb : Taskbar) (srv : XServer) (ev : XEvent)
    (hm : tb.alttab_mode = true) (hne : tb.wnd_list ≠ [])
    (hlen : tb.wnd_list.length < 2147483648)
    (ht : ev.type = KeyPress) (hs : ev.state = tb.alt_mask) (hk : ev.keycode = tb.tab_kc)
    (j : Nat) (hj : j < tb.wnd_list.length) :
    (update startx width { tb with atsel_wnd_idx := (j : Int) } srv ev).1
      = { tb with atsel_wnd_idx := (((j + 1) % tb.wnd_list.length : Nat) : Int) } := by
  have hconv : toULong ((j : Int) + 1) = j + 1 := by
    have := toULong_natCast (j + 1) (by omega)
    simpa using this
  simp [update, ht, hs, hk, hm, hne, cycle, hconv, KeyPress, Startup, PropertyNotify,
    ButtonPress, MapNotify]

/-- A grave press in alt-tab mode moves the selection from `j` to `count - 1`
when `j = 0` and to `j - 1` otherwise, and changes nothing else. -/
theorem update_grave_in_mode (startx width : Nat) (tb : Taskbar) (srv : XServer) (ev : XEvent)
    (hm : tb.alttab_mode = true) (hne : tb.wnd_list ≠ [])
    (ht : ev.type = KeyPress) (hs : ev.state = tb.alt_mask) (hk : ev.keycode = tb.grave_kc)
    (hd : tb.grave_kc ≠ tb.tab_kc) (j : Nat) :
    (update startx width { tb with atsel_wnd_idx := (j : Int) } srv ev).1
      = { tb with atsel_wnd_idx :=
            ((if j = 0 then tb.wnd_list.length - 1 else j - 1 : Nat) : Int) } := by
  by_cases hj : j = 0
  · subst hj
    simp [update, ht, hs, hk, hd, hm, hne, cycle, KeyPress, Startup, PropertyNotify,
      ButtonPress, MapNotify]
  · have hpos : (0 : Int) < (j : Int) := by omega
    have hcast : ((j - 1 : Nat) : Int) = (j : Int) - 1 := by omega
    simp [update, ht, hs, hk, hd, hm, hne, cycle, KeyPress, Startup, PropertyNotify,
      ButtonPress, MapNotify, hj, hpos, hcast]

theorem back_step_mod (n j : Nat) (hj : j < n) :
    (if j = 0 then n - 1 else j - 1) = (j + (n - 1)) % n := by
  by_cases h : j = 0
  · subst h
    simp only [if_true, Nat.zero_add]
    exact (Nat.mod_eq_of_lt (by omega)).symm
  · simp only [h, if_false]
    have h1 : j + (n - 1) = (j - 1) + n := by omega
    rw [h1, Nat.add_mod_right]
    exact (Nat.mod_eq_of_lt (by omega)).symm

theorem iterate_tab (startx width : Nat) (tb : Taskbar) (srv : XServer) (ev : XEvent)
    (hm : tb.alttab_mode = true) (hne : tb.wnd_list ≠ [])
    (hlen : tb.wnd_list.length < 2147483648)
    (ht : ev.type = KeyPress) (hs : ev.state = tb.alt_mask) (hk : ev.keycode = tb.tab_kc)
    (i : Nat) (hi : i < tb.wnd_list.length) (k : Nat) :
    (step startx width srv ev)^[k] { tb with atsel_wnd_idx := (i : Int) }
      = { tb with atsel_wnd_idx := (((i + k) % tb.wnd_list.length : Nat) : Int) } := by
  induction k with
  | zero => simp [Nat.mod_eq_of_lt hi]
  | succ k ih =>
    have hpos : 0 < tb.wnd_list.length := List.length_pos.mpr hne
    rw [Function.iterate_succ_apply', ih]
    unfold step
    rw [update_tab_in_mode startx width tb srv ev hm hne hlen ht hs hk
        ((i + k) % tb.wnd_list.length) (Nat.mod_lt _ hpos),
      Nat.mod_add_mod, Nat.add_assoc]

theorem iterate_grave (startx width : Nat) (tb : Taskbar) (srv : XServer) (ev : XEvent)
    (hm : tb.alttab_mode = true) (hne : tb.wnd_list ≠ [])
    (ht : ev.type = KeyPress) (hs : ev.state = tb.alt_mask) (hk : ev.keycode = tb.grave_kc)
    (hd : tb.grave_kc ≠ tb.tab_kc) (i : Nat) (hi : i < tb.wnd_list.length) (k : Nat) :
    (step startx width srv ev)^[k] { tb with atsel_wnd_idx := (i : Int) }
      = { tb with atsel_wnd_idx :=
            (((i + k * (tb.wnd_list.length - 1)) % tb.wnd_list.length : Nat) : Int) } := by
  induction k with
  | zero => simp [Nat.mod_eq_of_lt hi]
  | succ k ih =>
    have hpos : 0 < tb.wnd_list.length := List.length_pos.mpr hne
    rw [Function.iterate_succ_apply', ih]
    unfold step
    rw [update_grave_in_mode startx width tb srv ev hm hne ht hs hk hd,
      back_step_mod _ _ (Nat.mod_lt _ hpos), Nat.mod_add_mod, Nat.succ_mul, Nat.add_assoc]

/-- The state `tb` written with its selection index as a natural number. -/
theorem taskbar_eq_with_sel (tb : Taskbar) (h0 : 0 ≤ tb.atsel_wnd_idx) :
    tb = { tb with atsel_wnd_idx := ((tb.atsel_wnd_idx.toNat : Nat) : Int) } := by
  cases tb
  simp only [Taskbar.mk.injEq, true_and]
  exact (Int.toNat_of_nonneg h0).symm

/-- C6. In alt-tab mode with a non-empty tracked list of `count` windows and a
selection index `i` with `0 <= i < count`: each Tab press replaces the index
by `(index + 1) mod count`, each grave press by `count - 1` when it is 0 and
by `index - 1` otherwise; after any number of presses the index is in
`[0, count)` and the Taskbar is still in alt-tab mode with the same list; and
`count` presses of the same key lead back to the state they started from, so
to index `i`. -/
theorem cycle_count_times_returns (startx width : Nat) (tb : Taskbar) (srv : XServer)
    (ev : XEvent) (hm : tb.alttab_mode = true) (hne : tb.wnd_list ≠ [])
    (hlen : tb.wnd_list.length < 2147483648)
    (h0 : 0 ≤ tb.atsel_wnd_idx) (h1 : tb.atsel_wnd_idx < tb.wnd_list.length)
    (ht : ev.type = KeyPress) (hs : ev.state = tb.alt_mask)
    (hkey : ev.keycode = tb.tab_kc ∨ (ev.keycode = tb.grave_kc ∧ tb.grave_kc ≠ tb.tab_kc)) :
    (∀ k : Nat,
        ((step startx width srv ev)^[k] tb).alttab_mode = true
        ∧ ((step startx width srv ev)^[k] tb).wnd_list = tb.wnd_list
        ∧ 0 ≤ ((step startx width srv ev)^[k] tb).atsel_wnd_idx
        ∧ ((step startx width srv ev)^[k] tb).atsel_wnd_idx < tb.wnd_list.length
        ∧ (ev.keycode = tb.tab_kc →
            ((step startx width srv ev)^[k + 1] tb).atsel_wnd_idx
              = (((step startx width srv ev)^[k] tb).atsel_wnd_idx + 1) % tb.wnd_list.length)
        ∧ (ev.keycode ≠ tb.tab_kc →
            ((step startx width srv ev)^[k + 1] tb).atsel_wnd_idx
              = if ((step startx width srv ev)^[k] tb).atsel_wnd_idx = 0 then
                  (tb.wnd_list.length : Int) - 1
                else ((step startx width srv ev)^[k] tb).atsel_wnd_idx - 1))
    ∧ (step startx width srv ev)^[tb.wnd_list.length] tb = tb
    ∧ ((step startx width srv ev)^[tb.wnd_list.length] tb).atsel_wnd_idx = tb.atsel_wnd_idx := by
  have hpos : 0 < tb.wnd_list.length := List.length_pos.mpr hne
  have hi : tb.atsel_wnd_idx.toNat < tb.wnd_list.length := by omega
  have hrepr := taskbar_eq_with_sel tb h0
  rcases hkey with hk | ⟨hk, hd⟩
  · have hit := iterate_tab startx width tb srv ev hm hne hlen ht hs hk _ hi
    rw [← hrepr] at hit
    have hback : (step startx width srv ev)^[tb.wnd_list.length] tb = tb := by
      rw [hit, Nat.add_mod_right, Nat.mod_eq_of_lt hi]
      exact hrepr.symm
    refine ⟨fun k => ?_, hback, by rw [hback]⟩
    have hlt := Nat.mod_lt (tb.atsel_wnd_idx.toNat + k) hpos
    refine ⟨by rw [hit]; exact hm, by rw [hit], by rw [hit]; exact Int.natCast_nonneg _,
      by rw [hit]; exact Int.ofNat_lt.mpr hlt, fun _ => ?_, fun hn => absurd hk hn⟩
    rw [hit (k + 1), hit k]
    simp only
    rw [← Nat.add_assoc, ← Nat.mod_add_mod]
    push_cast
    rfl
  · have hne_tab : ev.keycode ≠ tb.tab_kc := by rw [hk]; exact hd
    have hit := iterate_grave startx width tb srv ev hm hne ht hs hk hd _ hi
    rw [← hrepr] at hit
    have hback : (step startx width srv ev)^[tb.wnd_list.length] tb = tb := by
      rw [hit, Nat.add_mul_mod_self_left, Nat.mod_eq_of_lt hi]
      exact hrepr.symm
    refine ⟨fun k => ?_, hback, by rw [hback]⟩
    have hlt := Nat.mod_lt (tb.atsel_wnd_idx.toNat + k * (tb.wnd_list.length - 1)) hpos
    refine ⟨by rw [hit]; exact hm, by rw [hit], by rw [hit]; exact Int.natCast_nonneg _,
      by rw [hit]; exact Int.ofNat_lt.mpr hlt, fun h => absurd h hne_tab, fun _ => ?_⟩
    rw [hit (k + 1), hit k]
    simp only
    rw [Nat.succ_mul, ← Nat.add_assoc, ← Nat.mod_add_mod, ← back_step_mod _ _ hlt]
    split_ifs with ha hb hb
    · omega
    · omega
    · omega
    · omega

theorem cycle_count_times_returns_witness :
    (step 100 1300 scenario_server (key_press 23))^[3] selecting_taskbar = selecting_taskbar
    ∧ (step 100 1300 scenario_server (key_press 49))^[3] selecting_taskbar = selecting_taskbar :=
  ⟨(cycle_count_times_returns 100 1300 selecting_taskbar scenario_server (key_press 23)
      rfl (List.cons_ne_nil _ _) (by decide) (by decide) (by decide) rfl rfl (Or.inl rfl)).2.1,
   (cycle_count_times_returns 100 1300 selecting_taskbar scenario_server (key_press 49)
      rfl (List.cons_ne_nil _ _) (by decide) (by decide) (by decide) rfl rfl
      (Or.inr ⟨rfl, by decide⟩)).2.1⟩

/-- C8. In the Normal state with an empty tracked list, a key press (any key
code, any modifier state) leaves the Taskbar as it is: alt-tab mode is not
entered, no activation is requested, nothing else is done. -/
theorem key_press_empty_list_stays_normal (startx width : Nat) (tb : Taskbar) (srv : XServer)
    (ev : XEvent) (hm : tb.alttab_mode = false) (hl : tb.wnd_list = [])
    (ht : ev.type = KeyPress) :
    update startx width tb srv ev = (tb, ⟨[], [], false⟩)
    ∧ (update startx width tb srv ev).1.alttab_mode = false
    ∧ (update startx width tb srv ev).2.activations = [] := by
  have h : update startx width tb srv ev = (tb, ⟨[], [], false⟩) := by
    simp [update, ht, hl, hm, KeyPress, Startup, PropertyNotify, ButtonPress, MapNotify,
      KeyRelease]
  rw [h]
  exact ⟨rfl, hm, rfl⟩

theorem key_press_empty_list_stays_normal_witness :
    update 100 1300 scenario_taskbar scenario_server (key_press 23)
      = (scenario_taskbar, ⟨[], [], false⟩) :=
  (key_press_empty_list_stays_normal 100 1300 scenario_taskbar scenario_server (key_press 23)
    rfl rfl rfl).1

/-- C9. In alt-tab mode, the release of the left Alt key ends the mode, and
`activate_window` is called exactly once, for `wnd_list[atsel_wnd_idx]`, when
`0 <= atsel_wnd_idx < wnd_list.size()`, and not at all otherwise. -/
theorem alt_release_leaves_mode (startx width : Nat) (tb : Taskbar) (srv : XServer)
    (ev : XEvent) (hm : tb.alttab_mode = true) (ht : ev.type = KeyRelease)
    (hk : ev.keycode = tb.alt_kc) :
    (update startx width tb srv ev).1.alttab_mode = false
    ∧ ((0 ≤ tb.atsel_wnd_idx ∧ tb.atsel_wnd_idx < tb.wnd_list.length) →
        ∃ p, tb.wnd_list.get? tb.atsel_wnd_idx.toNat = some p
          ∧ (update startx width tb srv ev).2.activations = [p.1])
    ∧ (¬ (0 ≤ tb.atsel_wnd_idx ∧ tb.atsel_wnd_idx < tb.wnd_list.length) →
        (update startx width tb srv ev).2.activations = []) := by
  have h : update startx width tb srv ev
      = ({ tb with alttab_mode := false },
          ⟨if 0 ≤ tb.atsel_wnd_idx ∧ toULong tb.atsel_wnd_idx < tb.wnd_list.length then
              handle_at tb.wnd_list tb.atsel_wnd_idx
            else [],
           [], true⟩) := by
    simp [update, ht, hk, hm, KeyPress, Startup, PropertyNotify, ButtonPress, MapNotify,
      KeyRelease]
  rw [h]
  refine ⟨rfl, ?_, ?_⟩
  · rintro ⟨h0, h1⟩
    have hlt : tb.atsel_wnd_idx.toNat < tb.wnd_list.length := by omega
    have hu : toULong tb.atsel_wnd_idx < tb.wnd_list.length := by
      unfold toULong
      omega
    refine ⟨tb.wnd_list.get ⟨_, hlt⟩, List.get?_eq_get hlt, ?_⟩
    simp only [h0, hu, and_self, if_true, handle_at, List.get?_eq_get hlt]
  · intro hn
    by_cases hg : 0 ≤ tb.atsel_wnd_idx ∧ toULong tb.atsel_wnd_idx < tb.wnd_list.length
    · have hge : tb.wnd_list.length ≤ tb.atsel_wnd_idx.toNat := by omega
      simp only [hg, and_self, if_true, handle_at, List.get?_eq_none.mpr hge]
    · simp only [hg, if_false]

theorem alt_release_leaves_mode_witness :
    (update 100 1300 selecting_taskbar scenario_server (key_release 64)).1.alttab_mode = false
    ∧ (update 100 1300 selecting_taskbar scenario_server (key_release 64)).2.activations
        = [3] := by
  have h := alt_release_leaves_mode 100 1300 selecting_taskbar scenario_server (key_release 64)
    rfl rfl rfl
  refine ⟨h.1, ?_⟩
  obtain ⟨p, hp, ha⟩ := h.2.1 ⟨by decide, by decide⟩
  rw [ha]
  have : selecting_taskbar.wnd_list.get? selecting_taskbar.atsel_wnd_idx.toNat
      = some (3, "\uf120") := rfl
  rw [this] at hp
  cases hp
  rfl

theorem search_active_range (a : Window) (l : List (Window × String)) (i : Int) :
    search_active a l i = -1
      ∨ (i ≤ search_active a l i ∧ search_active a l i < i + l.length) := by
  induction l generalizing i with
  | nil => left; rfl
  | cons p rest ih =>
    unfold search_active
    by_cases hp : p.1 = a
    · right
      simp only [hp, if_true, List.length_cons]
      omega
    · simp only [hp, if_false, List.length_cons]
      rcases ih (i + 1) with h | ⟨h1, h2⟩
      · left; exact h
      · right
        push_cast
        omega

theorem refresh_active_idx_range (tb : Taskbar) (srv : XServer) :
    -1 ≤ (refresh_active tb srv).active_wnd_idx
      ∧ (refresh_active tb srv).active_wnd_idx < tb.wnd_list.length := by
  unfold refresh_active
  split
  · simp only
    omega
  · rename_i a _ _
    simp only
    rcases search_active_range a tb.wnd_list 0 with h | ⟨h1, h2⟩
    · rw [h]
      omega
    · omega

theorem inv_refresh_active (tb : Taskbar) (srv : XServer)
    (h : tb.alttab_mode = true →
      0 ≤ tb.atsel_wnd_idx ∧ tb.atsel_wnd_idx < tb.wnd_list.length) :
    IndexInv (refresh_active tb srv) := by
  have hr := refresh_active_idx_range tb srv
  have hl := refresh_active_wnd_list tb srv
  have ha := refresh_active_alttab tb srv
  unfold IndexInv
  rw [hl, ha.1, ha.2]
  exact ⟨hr, h⟩

theorem inv_refresh_list (tb : Taskbar) (srv : XServer) (h : IndexInv tb)
    (hlen : tb.wnd_list.length ≤ (refresh_list tb srv).wnd_list.length) :
    IndexInv (refresh_list tb srv) := by
  obtain ⟨⟨h1, h2⟩, h3⟩ := h
  have hlen' : (tb.wnd_list.length : Int) ≤ (refresh_list tb srv).wnd_list.length :=
    Int.ofNat_le.mpr hlen
  refine ⟨⟨h1, lt_of_lt_of_le h2 hlen'⟩, fun hm => ?_⟩
  obtain ⟨h4, h5⟩ := h3 hm
  exact ⟨h4, lt_of_lt_of_le h5 hlen'⟩

theorem inv_cycle (tb : Taskbar) (keycode : Nat) (h : IndexInv tb) (hne : tb.wnd_list ≠ []) :
    IndexInv (cycle tb keycode) := by
  obtain ⟨⟨h1, h2⟩, h3⟩ := h
  have hpos : 0 < tb.wnd_list.length := List.length_pos.mpr hne
  have hmod : ∀ n : Nat, ((n % tb.wnd_list.length : Nat) : Int) < tb.wnd_list.length :=
    fun n => Int.ofNat_lt.mpr (Nat.mod_lt n hpos)
  unfold cycle IndexInv
  by_cases hm : tb.alttab_mode = true
  · obtain ⟨h4, h5⟩ := h3 hm
    by_cases hk : keycode = tb.tab_kc
    · simp only [hm, hk, if_true]
      exact ⟨⟨h1, h2⟩, fun _ => ⟨Int.natCast_nonneg _, hmod _⟩⟩
    · simp only [hm, hk, if_true, if_false]
      refine ⟨⟨h1, h2⟩, fun _ => ?_⟩
      split_ifs <;> omega
  · have hm' : tb.alttab_mode = false := by simpa using hm
    by_cases hk : keycode = tb.tab_kc
    · simp only [hm', hk, Bool.false_eq_true, if_false, if_true]
      exact ⟨⟨h1, h2⟩, fun _ => ⟨Int.natCast_nonneg _, hmod _⟩⟩
    · simp only [hm', hk, Bool.false_eq_true, if_false]
      refine ⟨⟨h1, h2⟩, fun _ => ?_⟩
      split_ifs <;> omega

/-- An `update` that does not shorten the tracked list keeps the indices
consistent. -/
theorem inv_update (startx width : Nat) (tb : Taskbar) (srv : XServer) (ev : XEvent)
    (h : IndexInv tb)
    (hlen : tb.wnd_list.length ≤ (update startx width tb srv ev).1.wnd_list.length) :
    IndexInv (update startx width tb srv ev).1 := by
  unfold update at hlen ⊢
  split_ifs at hlen ⊢ with c1 c2 c3 c4 c5 c6 c7 c8 c9
  · rw [refresh_active_wnd_list] at hlen
    exact inv_refresh_active _ srv (inv_refresh_list tb srv h hlen).2
  · exact inv_refresh_list tb srv h hlen
  · exact inv_refresh_active tb srv h.2
  · exact h
  · exact h
  · exact h
  · exact inv_cycle tb ev.keycode h c7.2.2.1
  · exact ⟨h.1, fun hm => by simp at hm⟩
  · exact ⟨h.1, fun hm => by simp at hm⟩
  · exact h

theorem reachable_no_shrink_inv (startx width : Nat) (tb : Taskbar)
    (h : ReachableNoShrink startx width tb) : IndexInv tb := by
  induction h with
  | startup client_atom active_atom tab alt grave active0 idx0 sel0 srv ev hev =>
    unfold update
    simp only [hev, if_true]
    exact inv_refresh_active _ srv (fun hm => by simp [refresh_list, construct] at hm)
  | update srv ev _ hlen ih => exact inv_update startx width _ srv ev ih hlen

/-- C7, counterexample. After Startup (windows 1, 2, 3, window 2 active), a Tab
press with Alt held (selection index 2) and a change of the client list that
leaves one window, the Taskbar is in alt-tab mode with selection index 2 and a
tracked list of length 1. -/
theorem alttab_selection_invalid_after_shrink :
    Reachable 100 1300 shrunk_taskbar
    ∧ shrunk_taskbar.alttab_mode = true
    ∧ shrunk_taskbar.atsel_wnd_idx = 2
    ∧ shrunk_taskbar.wnd_list.length = 1
    ∧ ¬ (0 ≤ shrunk_taskbar.atsel_wnd_idx
          ∧ shrunk_taskbar.atsel_wnd_idx < shrunk_taskbar.wnd_list.length) := by
  refine ⟨?_, by decide, by decide, by decide, by decide⟩
  exact Reachable.update shrunk_server (property_notify 301)
    (Reachable.update scenario_server (key_press 23)
      (Reachable.update scenario_server startup_xevent
        (Reachable.construct 301 302 23 64 49 0 0 0)))

/-- C7, amended. In every state reached from construction by the Startup
update followed by any sequence of `update` calls none of which shortens the
tracked list, alt-tab mode implies `0 <= atsel_wnd_idx < wnd_list.size()`. -/
theorem alttab_selection_valid_no_shrink (startx width : Nat) (tb : Taskbar)
    (h : ReachableNoShrink startx width tb) (hm : tb.alttab_mode = true) :
    0 ≤ tb.atsel_wnd_idx ∧ tb.atsel_wnd_idx < tb.wnd_list.length :=
  (reachable_no_shrink_inv startx width tb h).2 hm

theorem alttab_selection_valid_no_shrink_witness :
    0 ≤ (step 100 1300 scenario_server (key_press 23)
          (step 100 1300 scenario_server startup_xevent scenario_taskbar)).atsel_wnd_idx
    ∧ (step 100 1300 scenario_server (key_press 23)
          (step 100 1300 scenario_server startup_xevent scenario_taskbar)).atsel_wnd_idx
        < ((step 100 1300 scenario_server (key_press 23)
          (step 100 1300 scenario_server startup_xevent scenario_taskbar)).wnd_list.length : Int) :=
  alttab_selection_valid_no_shrink 100 1300 _
    (ReachableNoShrink.update scenario_server (key_press 23)
      (ReachableNoShrink.startup 301 302 23 64 49 0 0 0 scenario_server startup_xevent rfl)
      (by decide))
    (by decide)

theorem tdiv_slot (k r : Nat) (hr : r < 100) :
    Int.tdiv ((k : Int) * 100 + r) TGT_WIDTH = k := by
  unfold TGT_WIDTH
  rw [Int.tdiv_eq_ediv (by omega) (by omega)]
  omega

/-- C10, counterexample. With the configured region (start 100, width 1300) and
fourteen tracked windows, the press at `100 + 13 * 100 + 1 = 1401` lies outside
the region and requests no activation, although `13 < 14`. -/
theorem click_slot_outside_region :
    crowded_taskbar.wnd_list.length = 14
    ∧ crowded_taskbar.wnd_list.get? 13 = some (14, "\uf059")
    ∧ (update 100 1300 crowded_taskbar scenario_server
          (button_press (100 + 13 * 100 + 1))).2.activations = [] := by
  refine ⟨by decide, by decide, by decide⟩

/-- C10, amended. For a region that ends within the range of `int`
(`startx + width <= 2^31 - 1`), a tracked list of
`count` windows and a button press at `x`: if `x = startx + k * 100 + 1` with
`k < count` and the position inside the region (`k * 100 + 1 < width`), the
`update` requests the activation of exactly the tracked window at index `k`;
if `x = startx - 1`, or `x = startx + count * 100` (a position that fits in an
`int`), it requests no activation. The state is not changed. -/
theorem click_activates_slot (startx width : Nat) (tb : Taskbar) (srv : XServer)
    (ev : XEvent) (ht : ev.type = ButtonPress) (hreg : startx + width ≤ 2147483647) :
    (∀ k : Nat, k < tb.wnd_list.length → k * 100 + 1 < width →
        ev.x = (startx : Int) + k * 100 + 1 →
        ∃ p, tb.wnd_list.get? k = some p
          ∧ update startx width tb srv ev = (tb, ⟨[p.1], [], true⟩))
    ∧ (ev.x = (startx : Int) - 1 →
        (update startx width tb srv ev).2.activations = []
          ∧ (update startx width tb srv ev).1 = tb)
    ∧ (ev.x = (startx : Int) + tb.wnd_list.length * 100 →
        startx + tb.wnd_list.length * 100 < 2147483648 →
        (update startx width tb srv ev).2.activations = []
          ∧ (update startx width tb srv ev).1 = tb) := by
  have hmod : (startx + width) % 4294967296 = startx + width := Nat.mod_eq_of_lt (by omega)
  have hsx : toInt (startx : Int) = startx := by
    unfold toInt
    omega
  refine ⟨?_, ?_, ?_⟩
  · intro k hk hw hx
    have hux : toUInt ev.x = startx + k * 100 + 1 := by
      unfold toUInt
      omega
    have hsub : toInt (ev.x - toInt (startx : Int)) = (k : Int) * 100 + (1 : Nat) := by
      rw [hsx]
      unfold toInt
      omega
    have htgt : Int.tdiv (toInt (ev.x - toInt (startx : Int))) TGT_WIDTH = k := by
      rw [hsub]
      exact tdiv_slot k 1 (by omega)
    have hul : toULong (k : Int) = k := toULong_natCast k (by omega)
    have hguard : startx ≤ toUInt ev.x ∧ toUInt ev.x < (startx + width) % 4294967296 := by
      rw [hux, hmod]
      omega
    refine ⟨tb.wnd_list.get ⟨k, hk⟩, List.get?_eq_get hk, ?_⟩
    unfold update
    simp only [ht, hguard, and_self, if_true, click, htgt, hul, hk, handle_at, Int.toNat_ofNat,
      List.get?_eq_get hk, Int.natCast_nonneg]
    simp [ButtonPress, Startup, PropertyNotify]
  · intro hx
    have hguard : ¬ (startx ≤ toUInt ev.x ∧ toUInt ev.x < (startx + width) % 4294967296) := by
      rw [hmod]
      unfold toUInt
      omega
    unfold update
    simp [ht, hguard, ButtonPress, Startup, PropertyNotify, MapNotify, KeyPress, KeyRelease]
  · intro hx hfit
    have hux : toUInt ev.x = startx + tb.wnd_list.length * 100 := by
      unfold toUInt
      omega
    have hsub : toInt (ev.x - toInt (startx : Int))
        = (tb.wnd_list.length : Int) * 100 + (0 : Nat) := by
      rw [hsx]
      unfold toInt
      omega
    have htgt : Int.tdiv (toInt (ev.x - toInt (startx : Int))) TGT_WIDTH
        = tb.wnd_list.length := by
      rw [hsub]
      exact tdiv_slot _ 0 (by omega)
    have hul : toULong (tb.wnd_list.length : Int) = tb.wnd_list.length :=
      toULong_natCast _ (by omega)
    unfold update
    by_cases hguard : startx ≤ toUInt ev.x ∧ toUInt ev.x < (startx + width) % 4294967296
    · simp [ht, hguard, click, htgt, hul, ButtonPress, Startup, PropertyNotify]
    · simp [ht, hguard, ButtonPress, Startup, PropertyNotify, MapNotify, KeyPress, KeyRelease]

theorem click_activates_slot_witness :
    update 100 1300 selecting_taskbar scenario_server (button_press 201)
        = (selecting_taskbar, ⟨[2], [], true⟩)
    ∧ (update 100 1300 selecting_taskbar scenario_server (button_press 201)).2.activations
        = [2] := by
  obtain ⟨p, hp, hu⟩ :=
    (click_activates_slot 100 1300 selecting_taskbar scenario_server (button_press 201) rfl
      (by decide)).1 1 (by decide) (by decide) (by decide)
  have hp2 : selecting_taskbar.wnd_list.get? 1 = some (2, "\uf120") := rfl
  rw [hp2] at hp
  cases hp
  exact ⟨hu, by rw [hu]⟩

end TaskbarFacts

/-! ## Properties of the dispatcher -/

section DispatchFacts

open bar

theorem find_add (tbl : EtTable) (t t' : EventType) (c : Nat) :
    (tbl.add t c).find t'
      = if t = t' then some ((tbl.find t').getD [] ++ [c]) else tbl.find t' := by
  induction tbl with
  | nil => by_cases h : t = t' <;> simp [EtTable.add, EtTable.find, h]
  | cons kv rest ih =>
    obtain ⟨k, v⟩ := kv
    by_cases hk : k = t
    · subst hk
      by_cases h : k = t' <;> simp [EtTable.add, EtTable.find, h]
    · by_cases h : t = t'
      · subst h
        simp [EtTable.add, EtTable.find, hk, ih]
      · by_cases hk' : k = t'
        · subst hk'
          simp [EtTable.add, EtTable.find, hk, h]
        · simp [EtTable.add, EtTable.find, hk, hk', h, ih]

theorem find_add_component (c : Nat) (ts : List EventType) (hts : ts.Nodup) (tbl : EtTable)
    (t : EventType) :
    (add_component c ts tbl).find t
      = if t ∈ ts then some ((tbl.find t).getD [] ++ [c]) else tbl.find t := by
  induction ts generalizing tbl with
  | nil => simp [add_component]
  | cons t0 ts ih =>
    obtain ⟨h0, hts'⟩ := List.nodup_cons.mp hts
    rw [add_component, ih hts', find_add]
    by_cases h : t0 = t
    · subst h
      simp [h0]
    · have h' : ¬ t = t0 := fun e => h e.symm
      simp [h, h']

/-- What `et_table` holds for a type after the outer loop: the components
found before, followed by the declaring ones among those visited. -/
theorem find_build_from {σ : Type} (mem : Nat → σ) (comps : List (Component σ)) (i : Nat)
    (tbl : EtTable) (t : EventType) :
    (build_from mem comps i tbl).find t
      = match tbl.find t with
        | some v => some (v ++ declared_from mem t comps i)
        | none =>
          if declared_from mem t comps i = [] then none
          else some (declared_from mem t comps i) := by
  induction comps generalizing i tbl with
  | nil =>
    simp only [build_from, declared_from, List.append_nil, if_true]
    cases tbl.find t <;> rfl
  | cons comp rest ih =>
    rw [build_from, ih, find_add_component _ _ (comp.get_relevant_event_types (mem i)).nodup]
    by_cases h : t ∈ (comp.get_relevant_event_types (mem i)).elems
    · simp only [h, if_true, declared_from]
      cases tbl.find t <;> simp
    · simp only [h, if_false, declared_from]

theorem find_et_table {σ : Type} (comps : List (Component σ)) (mem : Nat → σ)
    (t : EventType) :
    (et_table comps mem).find t
      = if declared comps mem t = [] then none else some (declared comps mem t) := by
  unfold et_table declared
  rw [find_build_from]
  rfl

theorem mem_declared_from {σ : Type} (mem : Nat → σ) (t : EventType)
    (comps : List (Component σ)) (i c : Nat) :
    c ∈ declared_from mem t comps i
      ↔ i ≤ c ∧ ∃ comp, comps.get? (c - i) = some comp
          ∧ t ∈ (comp.get_relevant_event_types (mem c)).elems := by
  induction comps generalizing i c with
  | nil => simp [declared_from]
  | cons comp rest ih =>
    have hstep : ∀ x, x ∈ declared_from mem t rest (i + 1)
        ↔ i + 1 ≤ x ∧ ∃ comp, rest.get? (x - (i + 1)) = some comp
          ∧ t ∈ (comp.get_relevant_event_types (mem x)).elems := fun x => ih (i + 1) x
    have hc : ∀ x, i + 1 ≤ x → (comp :: rest).get? (x - i) = rest.get? (x - (i + 1)) := by
      intro x hx
      have : x - i = (x - (i + 1)) + 1 := by omega
      rw [this]
      rfl
    unfold declared_from
    by_cases h : t ∈ (comp.get_relevant_event_types (mem i)).elems
    · simp only [h, if_true, List.mem_cons, hstep]
      constructor
      · rintro (rfl | ⟨h1, comp', h2, h3⟩)
        · exact ⟨Nat.le_refl _, comp, by simp, h⟩
        · exact ⟨by omega, comp', by rw [hc c h1]; exact h2, h3⟩
      · rintro ⟨h1, comp', h2, h3⟩
        by_cases hci : c = i
        · left; exact hci
        · right
          have h1' : i + 1 ≤ c := by omega
          exact ⟨h1', comp', by rw [← hc c h1']; exact h2, h3⟩
    · simp only [h, if_false, hstep]
      constructor
      · rintro ⟨h1, comp', h2, h3⟩
        exact ⟨by omega, comp', by rw [hc c h1]; exact h2, h3⟩
      · rintro ⟨h1, comp', h2, h3⟩
        by_cases hci : c = i
        · subst hci
          simp only [Nat.sub_self, List.get?_cons_zero, Option.some.injEq] at h2
          subst h2
          exact absurd h3 h
        · have h1' : i + 1 ≤ c := by omega
          exact ⟨h1', comp', by rw [← hc c h1']; exact h2, h3⟩

theorem declared_from_sorted {σ : Type} (mem : Nat → σ) (t : EventType)
    (comps : List (Component σ)) (i : Nat) :
    (declared_from mem t comps i).Sorted (· < ·) := by
  induction comps generalizing i with
  | nil => exact List.sorted_nil
  | cons comp rest ih =>
    unfold declared_from
    split_ifs
    · refine List.sorted_cons.mpr ⟨fun x hx => ?_, ih (i + 1)⟩
      have := ((mem_declared_from mem t rest (i + 1) x).mp hx).1
      omega
    · exact ih (i + 1)

/-- The list `declared` holds exactly the positions of the components that
declare the type. -/
theorem mem_declared {σ : Type} (comps : List (Component σ)) (mem : Nat → σ) (t : EventType)
    (c : Nat) :
    c ∈ declared comps mem t
      ↔ ∃ comp, comps.get? c = some comp
          ∧ t ∈ (comp.get_relevant_event_types (mem c)).elems := by
  unfold declared
  rw [mem_declared_from]
  simp

theorem flips_append (a b : List Action) : flips (a ++ b) = flips a + flips b := by
  unfold flips
  exact List.count_append _ _ _

theorem flips_map_update (cs : List Nat) (ev : XEvent) :
    flips (cs.map (fun c => Action.update c ev)) = 0 := by
  unfold flips
  rw [List.count_eq_zero]
  intro h
  obtain ⟨c, _, hc⟩ := List.mem_map.mp h
  cases hc

/-- The loop over `et_table[ev.type]` either calls `update` on every
component of the vector, in order, or stops at the first call that throws. -/
theorem update_all_shape {σ : Type} (comps : List (Component σ)) (ev : XEvent)
    (cs : List Nat) (hcs : ∀ c ∈ cs, c < comps.length) (rs : RunState σ) :
    ((update_all comps ev cs rs).2 = none
      ∧ (update_all comps ev cs rs).1.trace
          = rs.trace ++ cs.map (fun c => Action.update c ev))
    ∨ (∃ e done c rest, (update_all comps ev cs rs).2 = some e
        ∧ cs = done ++ c :: rest
        ∧ (update_all comps ev cs rs).1.trace
            = rs.trace ++ (done ++ [c]).map (fun c => Action.update c ev)) := by
  induction cs generalizing rs with
  | nil => left; simp [update_all]
  | cons c cs ih =>
    have hc : c < comps.length := hcs c (List.mem_cons_self _ _)
    have hget : comps[c]? = some comps[c] := List.getElem?_eq_getElem hc
    have hcs' : ∀ x ∈ cs, x < comps.length := fun x hx => hcs x (List.mem_cons_of_mem _ hx)
    cases hupd : (comps[c]).update (rs.mem c) ev with
    | error e =>
      right
      refine ⟨e, [], c, cs, ?_, rfl, ?_⟩ <;> simp [update_all, hget, hupd]
    | ok s =>
      have hrw : update_all comps ev (c :: cs) rs
          = update_all comps ev cs
              ⟨Function.update rs.mem c s, rs.trace ++ [Action.update c ev]⟩ := by
        simp [update_all, hget, hupd]
      rw [hrw]
      rcases ih hcs' ⟨Function.update rs.mem c s, rs.trace ++ [Action.update c ev]⟩ with
        ⟨h1, h2⟩ | ⟨e, done, c', rest, h1, h2, h3⟩
      · left
        refine ⟨h1, ?_⟩
        rw [h2]
        simp
      · right
        refine ⟨e, c :: done, c', rest, h1, by rw [h2]; rfl, ?_⟩
        rw [h3]
        simp

theorem declared_lt_length {σ : Type} (comps : List (Component σ)) (mem : Nat → σ)
    (t : EventType) : ∀ c ∈ declared comps mem t, c < comps.length := by
  intro c hc
  obtain ⟨comp, hget, _⟩ := (mem_declared comps mem t c).mp hc
  by_contra hge
  rw [List.get?_eq_none.mpr (by omega)] at hget
  cases hget

/-- What one `dispatch` does, by cases: nobody declared the type; every
declaring component was updated and the surface flipped; or an `update` threw. -/
theorem dispatch_shape {σ : Type} (comps : List (Component σ)) (mem : Nat → σ) (ev : XEvent)
    (rs : RunState σ) :
    (declared comps mem ev.type = []
      ∧ dispatch comps (et_table comps mem) ev rs = (rs, none))
    ∨ (declared comps mem ev.type ≠ []
      ∧ (dispatch comps (et_table comps mem) ev rs).2 = none
      ∧ (dispatch comps (et_table comps mem) ev rs).1.trace
          = rs.trace ++ (declared comps mem ev.type).map (fun c => Action.update c ev)
              ++ [Action.flip])
    ∨ (∃ e done c rest, (dispatch comps (et_table comps mem) ev rs).2 = some e
      ∧ declared comps mem ev.type = done ++ c :: rest
      ∧ (dispatch comps (et_table comps mem) ev rs).1.trace
          = rs.trace ++ (done ++ [c]).map (fun c => Action.update c ev)) := by
  by_cases hd : declared comps mem ev.type = []
  · left
    refine ⟨hd, ?_⟩
    simp [dispatch, find_et_table, hd]
  · right
    have hfind : (et_table comps mem).find ev.type = some (declared comps mem ev.type) := by
      rw [find_et_table]
      simp [hd]
    rcases update_all_shape comps ev (declared comps mem ev.type)
        (declared_lt_length comps mem ev.type) rs with
      ⟨h1, h2⟩ | ⟨e, done, c, rest, h1, h2, h3⟩
    · left
      refine ⟨hd, ?_, ?_⟩
      · unfold dispatch
        rw [hfind]
        simp only
        split
        · rfl
        · rename_i heq
          rw [heq] at h1
          cases h1
      · unfold dispatch
        rw [hfind]
        simp only
        split
        · rename_i rs1 heq
          rw [heq] at h2
          simp only at h2 ⊢
          rw [h2]
        · rename_i heq
          rw [heq] at h1
          cases h1
    · right
      refine ⟨e, done, c, rest, ?_, h2, ?_⟩
      · unfold dispatch
        rw [hfind]
        simp only
        split
        · rename_i heq
          rw [heq] at h1
          cases h1
        · rename_i rs1 e1 heq
          rw [heq] at h1
          exact h1
      · unfold dispatch
        rw [hfind]
        simp only
        split
        · rename_i heq
          rw [heq] at h1
          cases h1
        · rename_i rs1 e1 heq
          rw [heq] at h3
          exact h3

theorem declared_nodup {σ : Type} (comps : List (Component σ)) (mem : Nat → σ)
    (t : EventType) : (declared comps mem t).Nodup :=
  (declared_from_sorted mem t comps 0).nodup

theorem event_loop_append {σ : Type} (comps : List (Component σ)) (tbl : EtTable)
    (pre post : List XEvent) (rs : RunState σ) :
    event_loop comps tbl (pre ++ post) rs
      = match event_loop comps tbl pre rs with
        | (rs1, none) => event_loop comps tbl post rs1
        | (rs1, some e) => (rs1, some e) := by
  induction pre generalizing rs with
  | nil => simp [event_loop]
  | cons ev evs ih =>
    simp only [List.cons_append, event_loop]
    cases hdis : dispatch comps tbl ev (note_focus ev rs) with
    | mk rs1 o =>
      cases o with
      | none => exact ih rs1
      | some e => rfl

theorem update_all_cons_ok {σ : Type} (comps : List (Component σ)) (ev : XEvent) (c : Nat)
    (cs : List Nat) (rs : RunState σ) (comp : Component σ) (s' : σ)
    (hget : comps.get? c = some comp) (hupd : comp.update (rs.mem c) ev = Except.ok s') :
    update_all comps ev (c :: cs) rs
      = update_all comps ev cs
          ⟨Function.update rs.mem c s', rs.trace ++ [Action.update c ev]⟩ := by
  rw [update_all, hget]
  simp only [hupd]

theorem update_all_cons_error {σ : Type} (comps : List (Component σ)) (ev : XEvent) (c : Nat)
    (cs : List Nat) (rs : RunState σ) (comp : Component σ) (e : Error)
    (hget : comps.get? c = some comp) (hupd : comp.update (rs.mem c) ev = Except.error e) :
    update_all comps ev (c :: cs) rs
      = (⟨rs.mem, rs.trace ++ [Action.update c ev]⟩, some e) := by
  rw [update_all, hget]
  simp only [hupd]

theorem update_all_cons_none {σ : Type} (comps : List (Component σ)) (ev : XEvent) (c : Nat)
    (cs : List Nat) (rs : RunState σ) (hget : comps.get? c = none) :
    update_all comps ev (c :: cs) rs = update_all comps ev cs rs := by
  rw [update_all, hget]

theorem update_all_append {σ : Type} (comps : List (Component σ)) (ev : XEvent)
    (a b : List Nat) (rs : RunState σ) :
    update_all comps ev (a ++ b) rs
      = match update_all comps ev a rs with
        | (rs1, none) => update_all comps ev b rs1
        | (rs1, some e) => (rs1, some e) := by
  induction a generalizing rs with
  | nil => simp [update_all]
  | cons c cs ih =>
    rw [List.cons_append]
    cases hget : comps.get? c with
    | none =>
      rw [update_all_cons_none comps ev c _ rs hget, update_all_cons_none comps ev c _ rs hget]
      exact ih rs
    | some comp =>
      cases hupd : comp.update (rs.mem c) ev with
      | ok s' =>
        rw [update_all_cons_ok comps ev c _ rs comp s' hget hupd,
          update_all_cons_ok comps ev c _ rs comp s' hget hupd]
        exact ih _
      | error e =>
        rw [update_all_cons_error comps ev c _ rs comp e hget hupd,
          update_all_cons_error comps ev c _ rs comp e hget hupd]

theorem returns_on_spec {σ : Type} (comps : List (Component σ)) (c : Nat) (s : σ)
    (ev : XEvent) (h : returns_on comps c s ev = true) :
    ∃ comp s', comps.get? c = some comp ∧ comp.update s ev = Except.ok s' := by
  unfold returns_on at h
  cases hget : comps.get? c with
  | none =>
    rw [hget] at h
    cases h
  | some comp =>
    rw [hget] at h
    dsimp only at h
    cases hupd : comp.update s ev with
    | ok s' => exact ⟨comp, s', rfl, hupd⟩
    | error e =>
      rw [hupd] at h
      cases h

/-- When each component of a vector without repetition returns normally from
`update` in the state it has before the loop, the loop updates all of them,
in order, and touches no other component. -/
theorem update_all_ok {σ : Type} (comps : List (Component σ)) (ev : XEvent)
    (cs : List Nat) (hnd : cs.Nodup) (rs : RunState σ)
    (hok : ∀ c ∈ cs, returns_on comps c (rs.mem c) ev = true) :
    (update_all comps ev cs rs).2 = none
    ∧ (update_all comps ev cs rs).1.trace
        = rs.trace ++ cs.map (fun c => Action.update c ev)
    ∧ ∀ x, x ∉ cs → (update_all comps ev cs rs).1.mem x = rs.mem x := by
  induction cs generalizing rs with
  | nil => exact ⟨rfl, by simp [update_all], fun _ _ => rfl⟩
  | cons c cs ih =>
    obtain ⟨hc, hnd'⟩ := List.nodup_cons.mp hnd
    obtain ⟨comp, s', hget, hupd⟩ :=
      returns_on_spec comps c (rs.mem c) ev (hok c (List.mem_cons_self _ _))
    rw [update_all_cons_ok comps ev c cs rs comp s' hget hupd]
    have hok' : ∀ d ∈ cs, returns_on comps d
        ((⟨Function.update rs.mem c s', rs.trace ++ [Action.update c ev]⟩ :
          RunState σ).mem d) ev = true := by
      intro d hd
      have hdc : d ≠ c := fun e => hc (e ▸ hd)
      simp only [Function.update_noteq hdc]
      exact hok d (List.mem_cons_of_mem _ hd)
    obtain ⟨h1, h2, h3⟩ := ih hnd' _ hok'
    refine ⟨h1, ?_, fun x hx => ?_⟩
    · rw [h2]
      simp
    · have hxc : x ≠ c := fun e => hx (e ▸ List.mem_cons_self _ _)
      rw [h3 x (fun h => hx (List.mem_cons_of_mem _ h))]
      exact Function.update_noteq hxc _ _

/-- When the components `done` return normally and the next one, `c`, throws,
the loop calls `update` on `done` and on `c` and on no component after `c`,
and the error leaves the loop. -/
theorem update_all_throw {σ : Type} (comps : List (Component σ)) (ev : XEvent)
    (done : List Nat) (c : Nat) (rest : List Nat) (hnd : (done ++ c :: rest).Nodup)
    (rs : RunState σ) (e : Error)
    (hok : ∀ d ∈ done, returns_on comps d (rs.mem d) ev = true)
    (hthrow : throws_on comps c (rs.mem c) ev e) :
    (update_all comps ev (done ++ c :: rest) rs).2 = some e
    ∧ (update_all comps ev (done ++ c :: rest) rs).1.trace
        = rs.trace ++ (done ++ [c]).map (fun c => Action.update c ev) := by
  obtain ⟨hnd1, _, hdisj⟩ := List.nodup_append.mp hnd
  obtain ⟨h1, h2, h3⟩ := update_all_ok comps ev done hnd1 rs hok
  have hc : c ∉ done := fun h => hdisj h (List.mem_cons_self _ _)
  obtain ⟨comp, hget, hupd⟩ := hthrow
  rw [update_all_append]
  cases hres : update_all comps ev done rs with
  | mk rs1 o =>
    rw [hres] at h1 h2 h3
    simp only at h1 h2 h3
    subst h1
    simp only
    have hupd' : comp.update (rs1.mem c) ev = Except.error e := by
      rw [h3 c hc]
      exact hupd
    rw [update_all_cons_error comps ev c rest rs1 comp e hget hupd']
    refine ⟨rfl, ?_⟩
    simp only [h2]
    simp

theorem dispatch_ok {σ : Type} (comps : List (Component σ)) (mem : Nat → σ) (ev : XEvent)
    (rs : RunState σ) (hd : declared comps mem ev.type ≠ [])
    (hok : ∀ c ∈ declared comps mem ev.type, returns_on comps c (rs.mem c) ev = true) :
    (dispatch comps (et_table comps mem) ev rs).2 = none
    ∧ (dispatch comps (et_table comps mem) ev rs).1.trace
        = rs.trace ++ (declared comps mem ev.type).map (fun c => Action.update c ev)
            ++ [Action.flip] := by
  have hfind : (et_table comps mem).find ev.type = some (declared comps mem ev.type) := by
    rw [find_et_table]
    simp [hd]
  obtain ⟨h1, h2, _⟩ :=
    update_all_ok comps ev _ (declared_nodup comps mem ev.type) rs hok
  unfold dispatch
  rw [hfind]
  dsimp only
  cases hres : update_all comps ev (declared comps mem ev.type) rs with
  | mk rs1 o =>
    rw [hres] at h1 h2
    simp only at h1 h2
    subst h1
    refine ⟨rfl, ?_⟩
    show rs1.trace ++ [Action.flip] = _
    rw [h2]

theorem dispatch_throw {σ : Type} (comps : List (Component σ)) (mem : Nat → σ) (ev : XEvent)
    (rs : RunState σ) (done : List Nat) (c : Nat) (rest : List Nat) (e : Error)
    (hd : declared comps mem ev.type = done ++ c :: rest)
    (hok : ∀ d ∈ done, returns_on comps d (rs.mem d) ev = true)
    (hthrow : throws_on comps c (rs.mem c) ev e) :
    (dispatch comps (et_table comps mem) ev rs).2 = some e
    ∧ (dispatch comps (et_table comps mem) ev rs).1.trace
        = rs.trace ++ (done ++ [c]).map (fun c => Action.update c ev) := by
  have hne : declared comps mem ev.type ≠ [] := by
    rw [hd]
    cases done <;> simp
  have hfind : (et_table comps mem).find ev.type = some (done ++ c :: rest) := by
    rw [find_et_table, ← hd]
    simp [hne]
  have hnd : (done ++ c :: rest).Nodup := hd ▸ declared_nodup comps mem ev.type
  obtain ⟨h1, h2⟩ := update_all_throw comps ev done c rest hnd rs e hok hthrow
  unfold dispatch
  rw [hfind]
  dsimp only
  cases hres : update_all comps ev (done ++ c :: rest) rs with
  | mk rs1 o =>
    rw [hres] at h1 h2
    simp only at h1 h2
    subst h1
    exact ⟨rfl, h2⟩

theorem note_focus_mem {σ : Type} (ev : XEvent) (rs : RunState σ) :
    (note_focus ev rs).mem = rs.mem := by
  unfold note_focus
  split_ifs <;> rfl

/-- The result of `run`, from the results of the Startup dispatch and of the
loop. -/
theorem run_eq_of {σ : Type} (comps : List (Component σ)) (mem : Nat → σ) (ev0 : XEvent)
    (evs : List XEvent) (rs0 rs1 : RunState σ) (o : Option Error)
    (h0 : dispatch comps (et_table comps mem) (startup_event ev0) ⟨mem, []⟩ = (rs0, none))
    (h1 : event_loop comps (et_table comps mem) evs rs0 = (rs1, o)) :
    run comps mem ev0 evs = (rs1, status_of o) := by
  unfold run
  rw [h0]
  dsimp only
  rw [h1]
  cases o <;> rfl

theorem run_startup_thrown {σ : Type} (comps : List (Component σ)) (mem : Nat → σ)
    (ev0 : XEvent) (evs : List XEvent) (rs0 : RunState σ) (e : Error)
    (h0 : dispatch comps (et_table comps mem) (startup_event ev0) ⟨mem, []⟩
      = (rs0, some e)) :
    run comps mem ev0 evs = (rs0, Status.terminated e) := by
  unfold run
  rw [h0]

/-- A run that waits for the next event has come through the Startup dispatch
and the loop without an error. -/
theorem run_waiting_inv {σ : Type} (comps : List (Component σ)) (mem : Nat → σ)
    (ev0 : XEvent) (evs : List XEvent) (h : (run comps mem ev0 evs).2 = Status.waiting) :
    ∃ rs0, dispatch comps (et_table comps mem) (startup_event ev0) ⟨mem, []⟩ = (rs0, none)
      ∧ event_loop comps (et_table comps mem) evs rs0 = ((run comps mem ev0 evs).1, none) := by
  cases h0 : dispatch comps (et_table comps mem) (startup_event ev0) ⟨mem, []⟩ with
  | mk rs0 o0 =>
    cases o0 with
    | some e =>
      rw [run_startup_thrown comps mem ev0 evs rs0 e h0] at h
      cases h
    | none =>
      cases h1 : event_loop comps (et_table comps mem) evs rs0 with
      | mk rs1 o =>
        have hr := run_eq_of comps mem ev0 evs rs0 rs1 o h0 h1
        rw [hr] at h ⊢
        cases o with
        | none => exact ⟨rs0, rfl, h1⟩
        | some e => cases h

/-- C3, counterexample. Both components of `faulty_comps` declared key presses,
and the first throws on them: `dispatch` invokes one `update` for the key
press and does not call `gfx::flip`. -/
theorem throwing_update_skips_flip :
    declared faulty_comps (fun _ => 0) (key_press 23).type = [0, 1]
    ∧ (dispatch faulty_comps (et_table faulty_comps (fun _ => 0)) (key_press 23)
        ⟨fun _ => 0, []⟩).1.trace = [Action.update 0 (key_press 23)]
    ∧ flips (dispatch faulty_comps (et_table faulty_comps (fun _ => 0)) (key_press 23)
        ⟨fun _ => 0, []⟩).1.trace = 0
    ∧ (dispatch faulty_comps (et_table faulty_comps (fun _ => 0)) (key_press 23)
        ⟨fun _ => 0, []⟩).2 = some ⟨"no key handler"⟩ := by
  refine ⟨by decide, by decide, by decide, by decide⟩

/-- C3, amended. For the table that `bar::run` builds and every event: when no
registered component declared the type of the event, `dispatch` calls neither
an `update` nor `gfx::flip`; when at least one did and each of them returns
normally from `update`, `dispatch` calls `update` on each of them and then
`gfx::flip` exactly once; when one of them throws, `dispatch` calls `update`
on the components up to that one and does not call `gfx::flip`. -/
theorem dispatch_flips_once {σ : Type} (comps : List (Component σ)) (mem : Nat → σ)
    (ev : XEvent) (rs : RunState σ) :
    (declared comps mem ev.type = [] →
        dispatch comps (et_table comps mem) ev rs = (rs, none)
          ∧ flips (dispatch comps (et_table comps mem) ev rs).1.trace = flips rs.trace)
    ∧ (declared comps mem ev.type ≠ [] →
        (∀ c ∈ declared comps mem ev.type, returns_on comps c (rs.mem c) ev = true) →
        (dispatch comps (et_table comps mem) ev rs).2 = none
          ∧ (dispatch comps (et_table comps mem) ev rs).1.trace
            = rs.trace ++ (declared comps mem ev.type).map (fun c => Action.update c ev)
                ++ [Action.flip]
          ∧ flips (dispatch comps (et_table comps mem) ev rs).1.trace = flips rs.trace + 1)
    ∧ (∀ (done : List Nat) (c : Nat) (rest : List Nat) (e : Error),
        declared comps mem ev.type = done ++ c :: rest →
        (∀ d ∈ done, returns_on comps d (rs.mem d) ev = true) →
        throws_on comps c (rs.mem c) ev e →
        (dispatch comps (et_table comps mem) ev rs).2 = some e
          ∧ (dispatch comps (et_table comps mem) ev rs).1.trace
            = rs.trace ++ (done ++ [c]).map (fun c => Action.update c ev)
          ∧ flips (dispatch comps (et_table comps mem) ev rs).1.trace = flips rs.trace) := by
  refine ⟨fun hd => ?_, fun hd hok => ?_, fun done c rest e hd hok hthrow => ?_⟩
  · rcases dispatch_shape comps mem ev rs with
      ⟨_, h2⟩ | ⟨h1, _, _⟩ | ⟨e, done, c, rest, _, h2, _⟩
    · exact ⟨h2, by rw [h2]⟩
    · exact absurd hd h1
    · rw [hd] at h2
      cases done <;> cases h2
  · obtain ⟨h1, h2⟩ := dispatch_ok comps mem ev rs hd hok
    refine ⟨h1, h2, ?_⟩
    rw [h2, flips_append, flips_append, flips_map_update]
    rfl
  · obtain ⟨h1, h2⟩ := dispatch_throw comps mem ev rs done c rest e hd hok hthrow
    refine ⟨h1, h2, ?_⟩
    rw [h2, flips_append, flips_map_update]
    rfl

theorem dispatch_flips_once_witness :
    (dispatch sound_comps (et_table sound_comps (fun _ => 0)) (key_release 64)
        ⟨fun _ => 0, []⟩).1.trace = []
    ∧ flips (dispatch sound_comps (et_table sound_comps (fun _ => 0)) expose_xevent
        ⟨fun _ => 0, []⟩).1.trace = 1
    ∧ flips (dispatch faulty_comps (et_table faulty_comps (fun _ => 0)) (key_press 23)
        ⟨fun _ => 0, []⟩).1.trace = 0 := by
  have h := dispatch_flips_once sound_comps (fun _ => 0)
  have hf := (dispatch_flips_once faulty_comps (fun _ => 0) (key_press 23)
    ⟨fun _ => 0, []⟩).2.2 [] 0 [1] ⟨"no key handler"⟩ (by decide) (by decide)
    ⟨_, rfl, rfl⟩
  refine ⟨?_, ?_, ?_⟩
  · rw [((h (key_release 64) ⟨fun _ => 0, []⟩).1 (by decide)).1]
  · rw [((h expose_xevent ⟨fun _ => 0, []⟩).2.1 (by decide) (by decide)).2.2]
    rfl
  · rw [hf.2.2]
    rfl

/-- What becomes of a run when the dispatch of the next event meets a
component that throws. -/
theorem run_event_throw {σ : Type} (comps : List (Component σ)) (mem : Nat → σ)
    (ev0 : XEvent) (pre : List XEvent) (ev : XEvent) (post : List XEvent)
    (done : List Nat) (c : Nat) (rest : List Nat) (e : Error)
    (hw : (run comps mem ev0 pre).2 = Status.waiting)
    (hd : declared comps mem ev.type = done ++ c :: rest)
    (hok : ∀ d ∈ done, returns_on comps d ((run comps mem ev0 pre).1.mem d) ev = true)
    (hthrow : throws_on comps c ((run comps mem ev0 pre).1.mem c) ev e) :
    (run comps mem ev0 (pre ++ ev :: post)).2 = Status.terminated e
    ∧ (run comps mem ev0 (pre ++ ev :: post)).1.trace
        = (note_focus ev (run comps mem ev0 pre).1).trace
            ++ (done ++ [c]).map (fun c => Action.update c ev) := by
  obtain ⟨rs0, h0, h1⟩ := run_waiting_inv comps mem ev0 pre hw
  generalize (run comps mem ev0 pre).1 = rs at h1 hok hthrow ⊢
  have hok' : ∀ d ∈ done, returns_on comps d ((note_focus ev rs).mem d) ev = true := by
    rw [note_focus_mem]
    exact hok
  have hthrow' : throws_on comps c ((note_focus ev rs).mem c) ev e := by
    rw [note_focus_mem]
    exact hthrow
  obtain ⟨k1, k2⟩ :=
    dispatch_throw comps mem ev (note_focus ev rs) done c rest e hd hok' hthrow'
  cases hres : dispatch comps (et_table comps mem) ev (note_focus ev rs) with
  | mk rs2 o =>
    rw [hres] at k1 k2
    simp only at k1 k2
    subst k1
    have hloop : event_loop comps (et_table comps mem) (pre ++ ev :: post) rs0
        = (rs2, some e) := by
      rw [event_loop_append, h1]
      dsimp only
      rw [event_loop, hres]
    rw [run_eq_of comps mem ev0 _ rs0 rs2 (some e) h0 hloop]
    exact ⟨rfl, k2⟩

/-- C5, counterexample. A component that throws on key presses is registered
before a component that never throws; both declare key presses and Expose.
After Startup, a key press and an Expose event, the run has been terminated
with the error of the key press, and no `update` call was made for the Expose
event, although two components declared it. -/
theorem failing_update_stops_loop :
    (run faulty_comps (fun _ => 0) startup_xevent [key_press 23, expose_xevent]).2
      = Status.terminated ⟨"no key handler"⟩
    ∧ calls (run faulty_comps (fun _ => 0) startup_xevent
        [key_press 23, expose_xevent]).1.trace
      = [(1, startup_xevent), (0, key_press 23)]
    ∧ declared faulty_comps (fun _ => 0) expose_xevent.type = [0, 1]
    ∧ (∀ c, (c, expose_xevent) ∉ calls (run faulty_comps (fun _ => 0) startup_xevent
        [key_press 23, expose_xevent]).1.trace) := by
  have hcalls : calls (run faulty_comps (fun _ => 0) startup_xevent
      [key_press 23, expose_xevent]).1.trace = [(1, startup_xevent), (0, key_press 23)] := by
    decide
  refine ⟨by decide, hcalls, by decide, fun c hc => ?_⟩
  rw [hcalls] at hc
  simp [expose_xevent, startup_xevent, key_press, Startup, Expose, KeyPress] at hc

/-- C5, amended. Let the components `done`, first among those that declared
the type of an event, return normally from `update`, and let the next one,
`c`, throw. Then `dispatch` calls `update` on `done` and `c` only: the
deliveries to the components after `c` are not made and `gfx::flip` is not
called. If this happens for an event read in the loop, or for Startup, the
run ends with that error, whatever events would follow: the loop has no
handler, nothing is done after the call that threw, and no later event is
dispatched. -/
theorem update_failure_ends_run {σ : Type} (comps : List (Component σ)) (mem : Nat → σ)
    (done : List Nat) (c : Nat) (rest : List Nat) (e : Error) :
    (∀ (ev : XEvent) (rs : RunState σ),
        declared comps mem ev.type = done ++ c :: rest →
        (∀ d ∈ done, returns_on comps d (rs.mem d) ev = true) →
        throws_on comps c (rs.mem c) ev e →
        (dispatch comps (et_table comps mem) ev rs).2 = some e
          ∧ (dispatch comps (et_table comps mem) ev rs).1.trace
              = rs.trace ++ (done ++ [c]).map (fun c => Action.update c ev)
          ∧ flips (dispatch comps (et_table comps mem) ev rs).1.trace = flips rs.trace)
    ∧ (∀ (ev0 : XEvent) (pre : List XEvent) (ev : XEvent) (post : List XEvent),
        (run comps mem ev0 pre).2 = Status.waiting →
        declared comps mem ev.type = done ++ c :: rest →
        (∀ d ∈ done, returns_on comps d ((run comps mem ev0 pre).1.mem d) ev = true) →
        throws_on comps c ((run comps mem ev0 pre).1.mem c) ev e →
        (run comps mem ev0 (pre ++ ev :: post)).2 = Status.terminated e
          ∧ (run comps mem ev0 (pre ++ ev :: post)).1.trace
              = (note_focus ev (run comps mem ev0 pre).1).trace
                  ++ (done ++ [c]).map (fun c => Action.update c ev))
    ∧ (∀ (ev0 : XEvent) (evs : List XEvent),
        declared comps mem Startup = done ++ c :: rest →
        (∀ d ∈ done, returns_on comps d (mem d) (startup_event ev0) = true) →
        throws_on comps c (mem c) (startup_event ev0) e →
        (run comps mem ev0 evs).2 = Status.terminated e
          ∧ (run comps mem ev0 evs).1.trace
              = (done ++ [c]).map (fun c => Action.update c (startup_event ev0))) := by
  refine ⟨fun ev rs hd hok hthrow => ?_,
    fun ev0 pre ev post hw hd hok hthrow =>
      run_event_throw comps mem ev0 pre ev post done c rest e hw hd hok hthrow,
    fun ev0 evs hd hok hthrow => ?_⟩
  · obtain ⟨h1, h2⟩ := dispatch_throw comps mem ev rs done c rest e hd hok hthrow
    refine ⟨h1, h2, ?_⟩
    rw [h2, flips_append, flips_map_update]
    rfl
  · obtain ⟨h1, h2⟩ :=
      dispatch_throw comps mem (startup_event ev0) ⟨mem, []⟩ done c rest e hd hok hthrow
    cases hres : dispatch comps (et_table comps mem) (startup_event ev0) ⟨mem, []⟩ with
    | mk rs0 o =>
      rw [hres] at h1 h2
      simp only at h1 h2
      subst h1
      rw [run_startup_thrown comps mem ev0 evs rs0 e hres]
      exact ⟨rfl, by simpa using h2⟩

theorem update_failure_ends_run_witness :
    (run faulty_comps (fun _ => 0) startup_xevent
        ([] ++ key_press 23 :: [expose_xevent])).2 = Status.terminated ⟨"no key handler"⟩
    ∧ (run startup_faulty_comps (fun _ => 0) startup_xevent [expose_xevent]).1.trace
        = [Action.update 0 startup_xevent] :=
  ⟨((update_failure_ends_run faulty_comps (fun _ => 0) [] 0 [1] ⟨"no key handler"⟩).2.1
      startup_xevent [] (key_press 23) [expose_xevent] (by decide) (by decide) (by decide)
      ⟨_, rfl, rfl⟩).1,
   ((update_failure_ends_run startup_faulty_comps (fun _ => 0) [] 0 [1] ⟨"no display"⟩).2.2
      startup_xevent [expose_xevent] (by decide) (by decide) ⟨_, rfl, rfl⟩).2⟩

end DispatchFacts

/-! ## Properties of the alt-tab gesture, the refresh and the click -/

section GestureFacts

open Taskbar

/-- A press of Tab or grave with exactly the designated modifier state, on a
non-empty tracked list, takes the key-press branch of `update`. -/
theorem update_cycle_key (startx width : Nat) (tb : Taskbar) (srv : XServer) (ev : XEvent)
    (ht : ev.type = KeyPress) (hs : ev.state = tb.alt_mask) (hne : tb.wnd_list ≠ [])
    (hk : ev.keycode = tb.tab_kc ∨ ev.keycode = tb.grave_kc) :
    update startx width tb srv ev = (cycle tb ev.keycode, ⟨[], [], true⟩) := by
  simp [update, ht, hs, hne, hk, KeyPress, Startup, PropertyNotify, ButtonPress, MapNotify]

theorem toULong_of_nonneg (n : Int) (h0 : 0 ≤ n) (h1 : n < 18446744073709551616) :
    (toULong n : Int) = n := by
  unfold toULong
  omega

/-- C11, counterexample. After a Startup update with windows 1, 2, 3 and no
active window the Taskbar is in the Normal state with active index -1; one Tab
press with Alt held leaves the selection index 0, whereas seeding with 0 and
advancing once would give `(0 + 1) mod 3 = 1`. -/
theorem first_press_without_active_selects_first :
    unfocused_taskbar.alttab_mode = false
    ∧ unfocused_taskbar.wnd_list.length = 3
    ∧ unfocused_taskbar.active_wnd_idx = -1
    ∧ (update 100 1300 unfocused_taskbar unfocused_server (key_press 23)).1.alttab_mode = true
    ∧ (update 100 1300 unfocused_taskbar unfocused_server (key_press 23)).1.atsel_wnd_idx = 0
    ∧ (update 100 1300 unfocused_taskbar unfocused_server (key_press 23)).1.atsel_wnd_idx
        ≠ (0 + 1) % 3 := by
  refine ⟨by decide, by decide, by decide, by decide, by decide, by decide⟩

/-- C11, amended. In the Normal state with a non-empty tracked list of `count`
windows, a press of Tab or grave with the modifier held enters alt-tab mode
with the selection index seeded with `active_wnd_idx` (which is -1 when no
tracked window is active) and advanced once: Tab gives
`(active_wnd_idx + 1) mod count`, which is index 0 when no window is active;
grave gives `active_wnd_idx - 1` when `active_wnd_idx > 0` and `count - 1`
otherwise, so `count - 1` both for active index 0 and for no active window. -/
theorem first_press_seeds_from_active (startx width : Nat) (tb : Taskbar) (srv : XServer)
    (ev : XEvent) (hm : tb.alttab_mode = false) (hne : tb.wnd_list ≠ [])
    (ht : ev.type = KeyPress) (hs : ev.state = tb.alt_mask)
    (hk : ev.keycode = tb.tab_kc ∨ ev.keycode = tb.grave_kc)
    (hlo : -1 ≤ tb.active_wnd_idx) (hhi : tb.active_wnd_idx < 2147483647) :
    (update startx width tb srv ev).1.alttab_mode = true
    ∧ (update startx width tb srv ev).1.wnd_list = tb.wnd_list
    ∧ (ev.keycode = tb.tab_kc →
        (update startx width tb srv ev).1.atsel_wnd_idx
            = (tb.active_wnd_idx + 1) % tb.wnd_list.length
          ∧ (tb.active_wnd_idx = -1 → (update startx width tb srv ev).1.atsel_wnd_idx = 0))
    ∧ (ev.keycode ≠ tb.tab_kc →
        (update startx width tb srv ev).1.atsel_wnd_idx
            = (if tb.active_wnd_idx > 0 then tb.active_wnd_idx - 1
                else (tb.wnd_list.length : Int) - 1)
          ∧ (tb.active_wnd_idx = -1 →
              (update startx width tb srv ev).1.atsel_wnd_idx
                = (tb.wnd_list.length : Int) - 1)) := by
  have hpos : 0 < tb.wnd_list.length := List.length_pos.mpr hne
  rw [update_cycle_key startx width tb srv ev ht hs hne hk]
  have hconv : (toULong (tb.active_wnd_idx + 1) : Int) = tb.active_wnd_idx + 1 :=
    toULong_of_nonneg _ (by omega) (by omega)
  refine ⟨?_, cycle_wnd_list tb ev.keycode, fun hkey => ?_, fun hkey => ?_⟩
  · unfold cycle
    by_cases hk' : ev.keycode = tb.tab_kc <;> simp [hm, hk']
  · have hval : (cycle tb ev.keycode).atsel_wnd_idx
        = (tb.active_wnd_idx + 1) % tb.wnd_list.length := by
      unfold cycle
      simp only [hm, hkey, Bool.false_eq_true, if_false, if_true]
      rw [Int.natCast_mod, hconv]
    refine ⟨hval, fun hnone => ?_⟩
    rw [hval, hnone]
    simp
  · have hval : (cycle tb ev.keycode).atsel_wnd_idx
        = (if tb.active_wnd_idx > 0 then tb.active_wnd_idx - 1
            else (tb.wnd_list.length : Int) - 1) := by
      unfold cycle
      simp only [hm, hkey, Bool.false_eq_true, if_false]
      split_ifs
      · rfl
      · omega
    refine ⟨hval, fun hnone => ?_⟩
    rw [hval, hnone]
    simp

theorem first_press_seeds_from_active_witness :
    (update 100 1300 started_taskbar scenario_server (key_press 23)).1.atsel_wnd_idx
        = (1 + 1) % 3
    ∧ (update 100 1300 (update 100 1300 started_taskbar scenario_server (key_press 23)).1
        scenario_server (key_release 64)).2.activations = [3] :=
  ⟨((first_press_seeds_from_active 100 1300 started_taskbar scenario_server (key_press 23)
      (by decide) (by decide) rfl rfl (Or.inl rfl) (by decide) (by decide)).2.2.1 rfl).1,
   by decide⟩

theorem assign_icons_eq (class_hint : Window → Option String) (l : List Window) :
    assign_icons class_hint l
      = (l.filter (has_class class_hint)).map (fun w => (w, icon ((class_hint w).getD ""))) := by
  induction l with
  | nil => rfl
  | cons w ws ih =>
    unfold assign_icons
    cases hc : class_hint w with
    | none => simp [has_class, hc, ih]
    | some c =>
      by_cases he : c = ""
      · simp [has_class, hc, he, ih]
      · simp [has_class, hc, he, ih]

theorem refresh_list_perm (tb : Taskbar) (srv : XServer) :
    (refresh_list tb srv).wnd_list.Perm (classified srv) := by
  unfold refresh_list classified
  rw [← assign_icons_eq]
  exact sort_wnd_list_perm _

/-- After a Startup update or a `_NET_CLIENT_LIST` change the tracked list is the
one that `refresh_list` computes. -/
theorem update_list_refreshed (startx width : Nat) (tb : Taskbar) (srv : XServer)
    (ev : XEvent)
    (hev : ev.type = Startup ∨ (ev.type = PropertyNotify ∧ ev.atom = tb.NET_CLIENT_LIST)) :
    (update startx width tb srv ev).1.wnd_list = (refresh_list tb srv).wnd_list := by
  rcases hev with h | ⟨h1, h2⟩
  · unfold update
    simp only [h, if_true]
    exact refresh_active_wnd_list _ _
  · unfold update
    simp [h1, h2, PropertyNotify, Startup]

theorem icon_cases (c : String) :
    (icon c = "\uf120" ↔ c = "URxvt")
    ∧ (icon c = "\uf269" ↔ c = "Firefox")
    ∧ (icon c = "\uf059" ↔ (c ≠ "URxvt" ∧ c ≠ "Firefox")) := by
  have h1 : ("\uf269" : String) ≠ "\uf120" := by decide
  have h2 : ("\uf059" : String) ≠ "\uf120" := by decide
  have h3 : ("\uf059" : String) ≠ "\uf269" := by decide
  have h4 : ("Firefox" : String) ≠ "URxvt" := by decide
  unfold icon
  by_cases hu : c = "URxvt"
  · subst hu
    simp [h1.symm, h2.symm, h4.symm]
  · by_cases hf : c = "Firefox"
    · subst hf
      simp [h1, h3.symm, h4]
    · simp [hu, hf, h2, h3]

/-- C12, counterexample. The X server returns the windows 1 and 2, and window
2 has no class hint: after the Startup update only window 1 is tracked, so the
tracked handles are not a permutation of the fetched ones. -/
theorem window_without_class_not_tracked :
    unclassed_server.client_list = [1, 2]
    ∧ handles (update 100 1300 scenario_taskbar unclassed_server startup_xevent).1 = [1]
    ∧ ¬ (handles (update 100 1300 scenario_taskbar unclassed_server startup_xevent).1).Perm
          unclassed_server.client_list := by
  have h : handles (update 100 1300 scenario_taskbar unclassed_server startup_xevent).1
      = [1] := by decide
  refine ⟨rfl, h, fun hp => ?_⟩
  have hlen := hp.length_eq
  rw [h] at hlen
  cases hlen

/-- C12, amended. After a Startup update or a `_NET_CLIENT_LIST` change, the
tracked list holds exactly one entry per fetched window for which
`XGetClassHint` succeeds with a non-empty class (windows without a class are
left out): its handles are a permutation of these windows, and each entry
pairs the window with the icon of its class, which is the terminal glyph iff
the class is `URxvt`, the Firefox glyph iff it is `Firefox`, and the `?` glyph
for every other class. -/
theorem refresh_tracks_classified (startx width : Nat) (tb : Taskbar) (srv : XServer)
    (ev : XEvent)
    (hev : ev.type = Startup ∨ (ev.type = PropertyNotify ∧ ev.atom = tb.NET_CLIENT_LIST)) :
    (handles (update startx width tb srv ev).1).Perm
        (srv.client_list.filter (has_class srv.class_hint))
    ∧ (update startx width tb srv ev).1.wnd_list.Perm (classified srv)
    ∧ (∀ p ∈ (update startx width tb srv ev).1.wnd_list,
        ∃ c, srv.class_hint p.1 = some c ∧ c ≠ "" ∧ p.1 ∈ srv.client_list
          ∧ p.2 = icon c)
    ∧ (∀ c : String,
        (icon c = "\uf120" ↔ c = "URxvt")
        ∧ (icon c = "\uf269" ↔ c = "Firefox")
        ∧ (icon c = "\uf059" ↔ (c ≠ "URxvt" ∧ c ≠ "Firefox"))) := by
  have hl := update_list_refreshed startx width tb srv ev hev
  have hperm : (update startx width tb srv ev).1.wnd_list.Perm (classified srv) := by
    rw [hl]
    exact refresh_list_perm tb srv
  refine ⟨?_, hperm, fun p hp => ?_, icon_cases⟩
  · have h := hperm.map Prod.fst
    unfold handles
    refine h.trans ?_
    unfold classified
    rw [List.map_map,
      show (Prod.fst ∘ fun w => (w, icon ((srv.class_hint w).getD ""))) = id from rfl,
      List.map_id]
  · have hp' := hperm.subset hp
    unfold classified at hp'
    obtain ⟨w, hw, rfl⟩ := List.mem_map.mp hp'
    obtain ⟨hw1, hw2⟩ := List.mem_filter.mp hw
    unfold has_class at hw2
    cases hc : srv.class_hint w with
    | none => simp [hc] at hw2
    | some c =>
      rw [hc] at hw2
      exact ⟨c, rfl, by simpa using hw2, hw1, rfl⟩

theorem refresh_tracks_classified_witness :
    (handles (update 100 1300 scenario_taskbar unclassed_server startup_xevent).1).Perm
      (unclassed_server.client_list.filter (has_class unclassed_server.class_hint)) :=
  (refresh_tracks_classified 100 1300 scenario_taskbar unclassed_server startup_xevent
    (Or.inl rfl)).1

/-- C13, evaluation at the failing input. Startup with windows 1, 2, 3 and
window 3 active gives active index 2. When window 1 is closed, the
`_NET_CLIENT_LIST` change leaves the tracked handles 2, 3 and the active window
3, but the active index is still 2: it is neither -1 nor an index of the list,
although window 3 is tracked at index 1. -/
theorem list_change_keeps_stale_active_index :
    (Taskbar.step 100 1300 focus3_server startup_xevent scenario_taskbar).active_wnd_idx = 2
    ∧ handles closed1_taskbar = [2, 3]
    ∧ closed1_taskbar.active = 3
    ∧ closed1_taskbar.active_wnd_idx = 2
    ∧ closed1_taskbar.wnd_list.length = 2
    ∧ ¬ (closed1_taskbar.active_wnd_idx = -1
          ∨ (0 ≤ closed1_taskbar.active_wnd_idx
              ∧ closed1_taskbar.active_wnd_idx < closed1_taskbar.wnd_list.length)) := by
  refine ⟨by decide, by decide, by decide, by decide, by decide, by decide⟩

theorem refresh_list_fields (tb : Taskbar) (srv : XServer) :
    (refresh_list tb srv).alttab_mode = tb.alttab_mode
    ∧ (refresh_list tb srv).atsel_wnd_idx = tb.atsel_wnd_idx
    ∧ (refresh_list tb srv).alt_kc = tb.alt_kc :=
  ⟨rfl, rfl, rfl⟩

theorem refresh_active_fields (tb : Taskbar) (srv : XServer) :
    (refresh_active tb srv).alttab_mode = tb.alttab_mode
    ∧ (refresh_active tb srv).atsel_wnd_idx = tb.atsel_wnd_idx
    ∧ (refresh_active tb srv).alt_kc = tb.alt_kc := by
  unfold refresh_active
  split <;> exact ⟨rfl, rfl, rfl⟩

/-- A `PropertyNotify` update changes neither the mode, nor the selection
index, nor the key code of Alt. -/
theorem property_notify_fields (startx width : Nat) (tb : Taskbar) (srv : XServer)
    (ev : XEvent) (ht : ev.type = PropertyNotify) :
    (update startx width tb srv ev).1.alttab_mode = tb.alttab_mode
    ∧ (update startx width tb srv ev).1.atsel_wnd_idx = tb.atsel_wnd_idx
    ∧ (update startx width tb srv ev).1.alt_kc = tb.alt_kc := by
  unfold update
  have hns : ¬ ev.type = Startup := by rw [ht]; decide
  rw [if_neg hns, if_pos ht]
  split_ifs
  · exact refresh_list_fields tb srv
  · exact refresh_active_fields tb srv
  · exact ⟨rfl, rfl, rfl⟩

theorem steps_property_notify_fields (startx width : Nat) (mids : List (XServer × XEvent))
    (tb : Taskbar) (hmids : ∀ m ∈ mids, m.2.type = PropertyNotify) :
    (steps startx width tb mids).alttab_mode = tb.alttab_mode
    ∧ (steps startx width tb mids).atsel_wnd_idx = tb.atsel_wnd_idx
    ∧ (steps startx width tb mids).alt_kc = tb.alt_kc := by
  induction mids generalizing tb with
  | nil => exact ⟨rfl, rfl, rfl⟩
  | cons m rest ih =>
    have h1 := property_notify_fields startx width tb m.1 m.2 (hmids m (List.mem_cons_self _ _))
    have h2 := ih (step startx width m.1 m.2 tb)
      (fun x hx => hmids x (List.mem_cons_of_mem _ hx))
    unfold steps
    unfold step at h2 ⊢
    exact ⟨h2.1.trans h1.1, h2.2.1.trans h1.2.1, h2.2.2.trans h1.2.2⟩

/-- What the release of Alt requests in alt-tab mode. -/
theorem release_activations (startx width : Nat) (tb : Taskbar) (srv : XServer)
    (ev : XEvent) (hm : tb.alttab_mode = true) (ht : ev.type = KeyRelease)
    (hk : ev.keycode = tb.alt_kc) :
    ((0 ≤ tb.atsel_wnd_idx ∧ tb.atsel_wnd_idx < tb.wnd_list.length) →
        ∃ p, tb.wnd_list.get? tb.atsel_wnd_idx.toNat = some p
          ∧ (update startx width tb srv ev).2.activations = [p.1])
    ∧ (¬ (0 ≤ tb.atsel_wnd_idx ∧ tb.atsel_wnd_idx < tb.wnd_list.length) →
        (update startx width tb srv ev).2.activations = []) := by
  have h : (update startx width tb srv ev).2.activations
      = if 0 ≤ tb.atsel_wnd_idx ∧ toULong tb.atsel_wnd_idx < tb.wnd_list.length then
          handle_at tb.wnd_list tb.atsel_wnd_idx
        else [] := by
    simp [update, ht, hk, hm, KeyPress, Startup, PropertyNotify, ButtonPress, MapNotify,
      KeyRelease]
  rw [h]
  refine ⟨?_, ?_⟩
  · rintro ⟨h0, h1⟩
    have hlt : tb.atsel_wnd_idx.toNat < tb.wnd_list.length := by omega
    have hu : toULong tb.atsel_wnd_idx < tb.wnd_list.length := by
      unfold toULong
      omega
    refine ⟨tb.wnd_list.get ⟨_, hlt⟩, List.get?_eq_get hlt, ?_⟩
    simp only [h0, hu, and_self, if_true, handle_at, List.get?_eq_get hlt]
  · intro hn
    by_cases hg : 0 ≤ tb.atsel_wnd_idx ∧ toULong tb.atsel_wnd_idx < tb.wnd_list.length
    · have hge : tb.wnd_list.length ≤ tb.atsel_wnd_idx.toNat := by omega
      simp only [hg, and_self, if_true, handle_at, List.get?_eq_none.mpr hge]
    · simp only [hg, if_false]

/-- C14, counterexample. With windows 1, 2, 3 tracked and window 2 selected
(index 1), window 2 is closed and the tracked list becomes 1, 3. Window 2 is
no longer tracked, yet the release of Alt requests an activation, that of
window 3. -/
theorem release_after_list_change_activates_other :
    picked2_taskbar.alttab_mode = true
    ∧ handle_at picked2_taskbar.wnd_list picked2_taskbar.atsel_wnd_idx = [2]
    ∧ handles picked2_closed_taskbar = [1, 3]
    ∧ 2 ∉ handles picked2_closed_taskbar
    ∧ (update 100 1300 picked2_closed_taskbar closed2_server (key_release 64)).2.activations
        = [3] := by
  refine ⟨by decide, by decide, by decide, by decide, by decide⟩

/-- C14, amended. Between the last cycle-key press and the release of Alt let
any number of window-list or active-window changes happen. They keep the mode
and the selection index. If the selection index is then no longer an index of
the tracked list, the release requests no activation; otherwise it requests
exactly one, for the handle that the tracked list holds at the selection index
at the time of the release, which is the handle selected at the press when the
tracked list is the same as at the press. -/
theorem release_targets_current_index (startx width : Nat) (tb : Taskbar)
    (mids : List (XServer × XEvent)) (srv : XServer) (ev : XEvent)
    (hm : tb.alttab_mode = true) (hmids : ∀ m ∈ mids, m.2.type = PropertyNotify)
    (ht : ev.type = KeyRelease) (hk : ev.keycode = tb.alt_kc) :
    (steps startx width tb mids).alttab_mode = true
    ∧ (steps startx width tb mids).atsel_wnd_idx = tb.atsel_wnd_idx
    ∧ (¬ (0 ≤ tb.atsel_wnd_idx
          ∧ tb.atsel_wnd_idx < (steps startx width tb mids).wnd_list.length) →
        (update startx width (steps startx width tb mids) srv ev).2.activations = [])
    ∧ ((0 ≤ tb.atsel_wnd_idx
          ∧ tb.atsel_wnd_idx < (steps startx width tb mids).wnd_list.length) →
        ∃ p, (steps startx width tb mids).wnd_list.get? tb.atsel_wnd_idx.toNat = some p
          ∧ (update startx width (steps startx width tb mids) srv ev).2.activations = [p.1]
          ∧ ((steps startx width tb mids).wnd_list = tb.wnd_list →
              tb.wnd_list.get? tb.atsel_wnd_idx.toNat = some p)) := by
  obtain ⟨h1, h2, h3⟩ := steps_property_notify_fields startx width mids tb hmids
  have hrel := release_activations startx width (steps startx width tb mids) srv ev
    (h1.trans hm) ht (hk.trans h3.symm)
  rw [h2] at hrel
  refine ⟨h1.trans hm, h2, hrel.2, fun hin => ?_⟩
  obtain ⟨p, hp, ha⟩ := hrel.1 hin
  exact ⟨p, hp, ha, fun hsame => by rw [← hsame]; exact hp⟩

theorem release_targets_current_index_witness :
    (update 100 1300
        (steps 100 1300 picked2_taskbar
          [(closed2_server, property_notify 301), (closed2_server, property_notify 301)])
        closed2_server (key_release 64)).2.activations = [3] := by
  obtain ⟨p, hp, ha, _⟩ :=
    (release_targets_current_index 100 1300 picked2_taskbar
      [(closed2_server, property_notify 301), (closed2_server, property_notify 301)]
      closed2_server (key_release 64) (by decide) (by decide) rfl rfl).2.2.2
      ⟨by decide, by decide⟩
  rw [ha]
  have hq : Option.map Prod.fst
      ((steps 100 1300 picked2_taskbar
        [(closed2_server, property_notify 301),
          (closed2_server, property_notify 301)]).wnd_list.get?
        picked2_taskbar.atsel_wnd_idx.toNat) = some 3 := by decide
  rw [hp] at hq
  simp only [Option.map_some', Option.some.injEq] at hq
  rw [hq]

/-- C15, counterexample. In alt-tab mode (windows 1, 2, 3 tracked) a button
press at 150, inside the region of `Taskbar<100, 1300>`, requests the
activation of window 1. -/
theorem click_in_alttab_mode_activates :
    selecting_taskbar.alttab_mode = true
    ∧ (update 100 1300 selecting_taskbar scenario_server (button_press 150)).2.activations
        = [1]
    ∧ (update 100 1300 selecting_taskbar scenario_server (button_press 150)).1.alttab_mode
        = true := by
  refine ⟨by decide, by decide, by decide⟩

/-- C15, amended. In both states, Normal and alt-tab mode, and for a region
that ends within the range of `int`: a button press leaves the state as it
is; a press at `x` inside the region requests the activation of the window at
`target = (x - startx) / 100` iff `target < count`, and then of exactly
that window; a press outside the region requests no activation. -/
theorem click_ignores_mode (startx width : Nat) (tb : Taskbar) (srv : XServer) (ev : XEvent)
    (ht : ev.type = ButtonPress) (hreg : startx + width ≤ 2147483647)
    (hx0 : -2147483648 ≤ ev.x) (hx1 : ev.x ≤ 2147483647) :
    (update startx width tb srv ev).1 = tb
    ∧ (((startx : Int) ≤ ev.x ∧ ev.x < (startx : Int) + width) →
        ((ev.x - startx) / 100 < tb.wnd_list.length →
          ∃ p, tb.wnd_list.get? ((ev.x - startx) / 100).toNat = some p
            ∧ (update startx width tb srv ev).2.activations = [p.1])
        ∧ (¬ (ev.x - startx) / 100 < tb.wnd_list.length →
          (update startx width tb srv ev).2.activations = []))
    ∧ (¬ ((startx : Int) ≤ ev.x ∧ ev.x < (startx : Int) + width) →
        (update startx width tb srv ev).2.activations = []) := by
  have hmod : (startx + width) % 4294967296 = startx + width := Nat.mod_eq_of_lt (by omega)
  by_cases hin : (startx : Int) ≤ ev.x ∧ ev.x < (startx : Int) + width
  · have hguard : startx ≤ toUInt ev.x ∧ toUInt ev.x < (startx + width) % 4294967296 := by
      rw [hmod]
      unfold toUInt
      omega
    have hupd : update startx width tb srv ev = (tb, ⟨click startx tb ev.x, [], true⟩) := by
      unfold update
      simp only [ht, hguard, and_self, if_true]
      simp [ButtonPress, Startup, PropertyNotify]
    have hsub : toInt (ev.x - toInt (startx : Int)) = ev.x - startx := by
      unfold toInt
      omega
    have htgt : Int.tdiv (toInt (ev.x - toInt (startx : Int))) TGT_WIDTH
        = (ev.x - startx) / 100 := by
      rw [hsub]
      unfold TGT_WIDTH
      exact Int.tdiv_eq_ediv (by omega) (by omega)
    have hnn : 0 ≤ (ev.x - startx) / 100 := by omega
    have hul : toULong ((ev.x - startx) / 100) = ((ev.x - startx) / 100).toNat := by
      unfold toULong
      omega
    rw [hupd]
    refine ⟨rfl, fun _ => ⟨fun hlt => ?_, fun hge => ?_⟩, fun hout => absurd hin hout⟩
    · have hlt' : ((ev.x - startx) / 100).toNat < tb.wnd_list.length := by omega
      refine ⟨tb.wnd_list.get ⟨_, hlt'⟩, List.get?_eq_get hlt', ?_⟩
      simp only [click, htgt, hul, hnn, hlt', and_self, if_true, handle_at,
        List.get?_eq_get hlt']
    · have hge' : ¬ ((ev.x - startx) / 100).toNat < tb.wnd_list.length := by omega
      simp only [click, htgt, hul, hge', and_false, if_false]
  · have hguard : ¬ (startx ≤ toUInt ev.x ∧ toUInt ev.x < (startx + width) % 4294967296) := by
      rw [hmod]
      unfold toUInt
      omega
    have hupd : update startx width tb srv ev = (tb, ⟨[], [], false⟩) := by
      unfold update
      simp [ht, hguard, ButtonPress, Startup, PropertyNotify, MapNotify, KeyPress, KeyRelease]
    rw [hupd]
    exact ⟨rfl, fun h => absurd h hin, fun _ => rfl⟩

theorem click_ignores_mode_witness :
    (update 100 1300 started_taskbar scenario_server (button_press 250)).1 = started_taskbar
    ∧ (update 100 1300 started_taskbar scenario_server (button_press 450)).2.activations
        = [] :=
  ⟨(click_ignores_mode 100 1300 started_taskbar scenario_server (button_press 250) rfl
      (by decide) (by decide) (by decide)).1,
   ((click_ignores_mode 100 1300 started_taskbar scenario_server (button_press 450) rfl
      (by decide) (by decide) (by decide)).2.1 ⟨by decide, by decide⟩).2 (by decide)⟩

/-- C16, counterexample. In the Normal state with windows 1, 2, 3 tracked, a
Tab press whose modifier state has the Mod1 bit and the Mod2 (Num Lock) bit
set is ignored: the Taskbar stays in the Normal state and nothing is redrawn. -/
theorem press_with_lock_modifier_ignored :
    started_taskbar.alttab_mode = false
    ∧ started_taskbar.wnd_list.length = 3
    ∧ (Mod1Mask ||| Mod2Mask) &&& Mod1Mask = Mod1Mask
    ∧ update 100 1300 started_taskbar scenario_server
        (key_press_with (Mod1Mask ||| Mod2Mask) 23) = (started_taskbar, ⟨[], [], false⟩)
    ∧ (update 100 1300 started_taskbar scenario_server
        (key_press_with (Mod1Mask ||| Mod2Mask) 23)).1.alttab_mode = false := by
  refine ⟨by decide, by decide, by decide, by decide, by decide⟩

theorem cycle_fields (tb : Taskbar) (keycode : Nat) :
    (cycle tb keycode).alttab_mode = true
    ∧ (cycle tb keycode).alt_mask = tb.alt_mask
    ∧ (cycle tb keycode).tab_kc = tb.tab_kc
    ∧ (cycle tb keycode).grave_kc = tb.grave_kc := by
  unfold cycle
  by_cases hm : tb.alttab_mode = true <;> by_cases hk : keycode = tb.tab_kc <;>
    simp [hm, hk]

/-- The selection index after the key-press branch, from the index `s` it
starts from. -/
theorem cycle_index (tb : Taskbar) (keycode : Nat) (s : Int)
    (hsdef : s = if tb.alttab_mode = true then tb.atsel_wnd_idx else tb.active_wnd_idx)
    (hne : tb.wnd_list ≠ []) (hlo : -1 ≤ s) (hhi : s < 2147483647) :
    (keycode = tb.tab_kc →
        (cycle tb keycode).atsel_wnd_idx = (s + 1) % tb.wnd_list.length)
    ∧ (keycode ≠ tb.tab_kc →
        (cycle tb keycode).atsel_wnd_idx
          = if s > 0 then s - 1 else (tb.wnd_list.length : Int) - 1) := by
  have hconv : (toULong (s + 1) : Int) = s + 1 :=
    toULong_of_nonneg _ (by omega) (by omega)
  have hpos : 0 < tb.wnd_list.length := List.length_pos.mpr hne
  by_cases hm : tb.alttab_mode = true
  · rw [if_pos hm] at hsdef
    refine ⟨fun hkey => ?_, fun hkey => ?_⟩
    · unfold cycle
      simp only [hm, hkey, if_true]
      rw [Int.natCast_mod, ← hsdef, hconv]
    · unfold cycle
      simp only [hm, hkey, if_true, if_false]
      rw [← hsdef]
      split_ifs
      · rfl
      · omega
  · have hm' : tb.alttab_mode = false := by simpa using hm
    rw [if_neg hm] at hsdef
    refine ⟨fun hkey => ?_, fun hkey => ?_⟩
    · unfold cycle
      simp only [hm', hkey, Bool.false_eq_true, if_false, if_true]
      rw [Int.natCast_mod, ← hsdef, hconv]
    · unfold cycle
      simp only [hm', hkey, Bool.false_eq_true, if_false]
      rw [← hsdef]
      split_ifs
      · rfl
      · omega

/-- C16, amended. For a key press of Tab or grave whose modifier state is
exactly the designated modifier mask (no other bit set) and a non-empty
tracked list of `count` windows: after `update` the Taskbar is in alt-tab
mode, entered from the Normal state or kept when it was in it, with the same
tracked list; a repeated press keeps the mode; and the selection index has
advanced by one step from `s`, the selection index in alt-tab mode and the
active index in the Normal state: to `(s + 1) mod count` for Tab, and for
grave to `s - 1` when `s > 0` and to `count - 1` otherwise. -/
theorem exact_modifier_press_cycles (startx width : Nat) (tb : Taskbar) (srv : XServer)
    (ev : XEvent) (s : Int)
    (hsdef : s = if tb.alttab_mode = true then tb.atsel_wnd_idx else tb.active_wnd_idx)
    (hne : tb.wnd_list ≠ []) (ht : ev.type = KeyPress) (hs : ev.state = tb.alt_mask)
    (hk : ev.keycode = tb.tab_kc ∨ ev.keycode = tb.grave_kc)
    (hlo : -1 ≤ s) (hhi : s < 2147483647) :
    (update startx width tb srv ev).1.alttab_mode = true
    ∧ (update startx width tb srv ev).1.wnd_list = tb.wnd_list
    ∧ (update startx width (update startx width tb srv ev).1 srv ev).1.alttab_mode = true
    ∧ (ev.keycode = tb.tab_kc →
        (update startx width tb srv ev).1.atsel_wnd_idx = (s + 1) % tb.wnd_list.length)
    ∧ (ev.keycode ≠ tb.tab_kc →
        (update startx width tb srv ev).1.atsel_wnd_idx
          = if s > 0 then s - 1 else (tb.wnd_list.length : Int) - 1) := by
  have hu := update_cycle_key startx width tb srv ev ht hs hne hk
  obtain ⟨hf1, hf2, hf3, hf4⟩ := cycle_fields tb ev.keycode
  have hl := cycle_wnd_list tb ev.keycode
  have hu2 := update_cycle_key startx width (cycle tb ev.keycode) srv ev ht
    (hs.trans hf2.symm) (by rw [hl]; exact hne) (by rw [hf3, hf4]; exact hk)
  have hidx := cycle_index tb ev.keycode s hsdef hne hlo hhi
  rw [hu]
  simp only
  rw [hu2]
  exact ⟨hf1, hl, (cycle_fields _ ev.keycode).1, hidx.1, hidx.2⟩

theorem exact_modifier_press_cycles_witness :
    (update 100 1300 selecting_taskbar scenario_server (key_press 23)).1.alttab_mode = true
    ∧ (update 100 1300 selecting_taskbar scenario_server (key_press 23)).1.atsel_wnd_idx
        = (2 + 1) % 3 := by
  have h := exact_modifier_press_cycles 100 1300 selecting_taskbar scenario_server
    (key_press 23) 2 rfl (List.cons_ne_nil _ _) rfl rfl (Or.inl rfl) (by decide) (by decide)
  exact ⟨h.1, h.2.2.2.1 rfl⟩

end GestureFacts

end Cybar
